import Mathlib


/-!
# Startup, forwarding loop and teardown of the VNF acceleration example (`main.c`)

A shallow embedding of `src/main.c`.  The program is a sequence of calls into
DPDK and into the rule builders of `vnf_examples.h`; none of those bodies is
part of `main.c`.  The embedding therefore records every such call as an event
of a call trace and takes the value each call returns from an oracle that may
depend on the whole history of calls made so far (so every behaviour of the
callees is covered).  `printf` output, the store `force_quit = false` and the socket argument of the
queue setup calls are not modelled.
-/

namespace VnfAccel

/-! ## Machine integers -/

/-- Truncation to `uint8_t`. -/
def u8 (x : Nat) : Nat := x % 2 ^ 8

/-- Truncation to `uint16_t`. -/
def u16 (x : Nat) : Nat := x % 2 ^ 16

/-- Truncation to `uint32_t`. -/
def u32 (x : Nat) : Nat := x % 2 ^ 32

/-- Truncation to `uint64_t`. -/
def u64 (x : Nat) : Nat := x % 2 ^ 64

/-! ## File-scope variables and constants of `main.c` -/

/-- File-scope `static uint32_t nr_std_queues = 8;`. -/
def nr_std_queues : Nat := 8

/-- File-scope `static uint16_t queues[] = {1, 3, 2, 4, 5, 7, 0, 6};`. -/
def queues : List Nat := [1, 3, 2, 4, 5, 7, 0, 6]

/-- File-scope `static uint16_t nr_hairpin_queues = 1;`. -/
def nr_hairpin_queues : Nat := 1

/-- Macro `CHECK_INTERVAL`. -/
def CHECK_INTERVAL : Nat := 1000

/-- Macro `MAX_REPEAT_TIMES`. -/
def MAX_REPEAT_TIMES : Nat := 90

/-- The C library value `EXIT_FAILURE`. -/
def EXIT_FAILURE : Int := 1

/-- The errno value `EINVAL`. -/
def EINVAL : Int := 22

/-- Signal number `SIGINT`. -/
def SIGINT : Nat := 2

/-- Signal number `SIGTERM`. -/
def SIGTERM : Nat := 15

/-! ## Calls made by `main.c` -/

/-- One call from `main.c` into DPDK, libc or `vnf_examples.h`, with the
arguments that `main.c` computes.  `read_force_quit v` is a read of the
volatile flag `force_quit` that yielded `v`. -/
inductive Call where
  | rte_eal_init
  | signal (signum : Nat)
  | rte_eth_dev_count_avail
  | rte_pktmbuf_pool_create (n cache_size priv_size : Nat)
  | rte_eth_dev_info_get (port_id : Nat)
  | rte_eth_dev_configure (port_id nb_rx_q nb_tx_q tx_offloads : Nat)
  | rte_eth_rx_queue_setup (port_id queue nb_desc rx_offloads : Nat)
  | rte_eth_tx_queue_setup (port_id queue nb_desc tx_offloads : Nat)
  | rte_eth_promiscuous_enable (port_id : Nat)
  | hairpin_two_ports_setup (nr_hairpin_queues : Nat)
  | hairpin_one_port_setup (port_id nr_hairpin_queues : Nat)
  | rte_eth_dev_start (port_id : Nat)
  | rte_eth_link_get (port_id : Nat)
  | rte_delay_ms (ms : Nat)
  | hairpin_two_ports_bind
  | rte_eth_find_next (port_id : Nat)
  | create_gtp_u_decap_rss_flow (port_id nr_queues : Nat) (queues : List Nat)
  | create_gtp_u_inner_ip_rss_flow (port_id nr_queues : Nat) (queues : List Nat)
  | create_gtp_u_encap_flow (port_id : Nat)
  | create_gtp_u_psc_encap_flow (port_id : Nat)
  | hairpin_two_ports_flows_create
  | hairpin_one_port_flows_create
  | create_flow_with_tag (port_id : Nat)
  | create_flow_with_sampling (port_id : Nat)
  | create_nic_flow_with_mirror (port_id mirror2queue fwd2queue : Nat)
  | create_symmetric_rss_flow (port_id nr_queues : Nat) (queues : List Nat)
  | create_flow_with_age (port_id : Nat)
  | create_gre_decap_rss_flow (port_id nr_queues : Nat) (queues : List Nat)
  | create_gre_encap_flow (port_id : Nat)
  | create_hairpin_meta_flow
  | create_flow_with_counter (port_id : Nat)
  | query_counters (port_id : Nat)
  | create_modify_gtp_teid_flows (port_id : Nat)
  | read_force_quit (value : Bool)
  | rte_eth_rx_burst (port_id queue nb_pkts : Nat)
  | dump_pkt_info (m queue : Nat)
  | rte_eth_tx_burst (port_id queue : Nat) (pkts : List Nat)
  | rte_pktmbuf_free (m : Nat)
  | rte_eal_mp_wait_lcore
  | rte_flow_flush (port_id : Nat)
  | hairpin_two_ports_unbind
  | rte_eth_dev_stop (port_id : Nat)
  | rte_eth_dev_close (port_id : Nat)
  | rte_eal_cleanup
deriving DecidableEq, Repr

/-- A call trace, oldest call first. -/
abbrev Trace := List Call

/-! ## The environment -/

/-- Everything `main.c` does not decide itself.  Each oracle receives the
history of calls up to and including the call being answered.

* `ports`: the port ids that `RTE_ETH_FOREACH_DEV` enumerates, in order;
  `rte_eth_dev_count_avail` counts the same ports.
* `status`: the `int` returned by a call that returns a status.
* `handle`: the pointer returned by a call that returns one (`0` is `NULL`).
* `first_port`: the value of `rte_eth_find_next(0)`.
* `tx_offload_capa`: `dev_info.tx_offload_capa` as filled by
  `rte_eth_dev_info_get`.
* `link`: what `rte_eth_link_get` stores in `link.link_status` (`none`: the
  structure is left untouched, `some true`: `ETH_LINK_UP`).
* `rx`: the buffers `rte_eth_rx_burst` stores into `mbufs`.
* `tx`: the count `rte_eth_tx_burst` returns.
* `force_quit`: the value a read of `force_quit` yields, given the history
  before the read.
* `stack_nb_tx`, `stack_mbufs`: the indeterminate initial contents of the
  uninitialised locals `nb_tx` and `mbufs` of `main_loop`.
* `DEV_TX_OFFLOAD_*`: the flag values of `rte_ethdev.h`. -/
structure Env where
  ports : List Nat
  status : Trace → Int
  handle : Trace → Nat
  first_port : Nat
  tx_offload_capa : Trace → Nat
  link : Trace → Option Bool
  rx : Trace → List Nat
  tx : Trace → Nat
  force_quit : Trace → Bool
  stack_nb_tx : Nat
  stack_mbufs : List Nat
  DEV_TX_OFFLOAD_VLAN_INSERT : Nat
  DEV_TX_OFFLOAD_IPV4_CKSUM : Nat
  DEV_TX_OFFLOAD_UDP_CKSUM : Nat
  DEV_TX_OFFLOAD_TCP_CKSUM : Nat
  DEV_TX_OFFLOAD_SCTP_CKSUM : Nat
  DEV_TX_OFFLOAD_TCP_TSO : Nat

/-! ## The execution monad -/

/-- How a piece of the program ends: it returns a value, the process is
terminated by `rte_exit(code, ...)`, or the model ran out of fuel (only the
unbounded `while` of `main_loop` consumes fuel). -/
inductive Outcome (α : Type) where
  | ret (a : α)
  | rte_exit (code : Int)
  | out_of_fuel
deriving DecidableEq, Repr

/-- A computation: given the history of calls made before it starts, it yields
its outcome and the calls it made itself. -/
def M (α : Type) : Type := Trace → Outcome α × Trace

/-- Run a computation after history `h`. -/
def M.run {α : Type} (m : M α) (h : Trace) : Outcome α × Trace := m h

/-- Return without making a call. -/
def M.pure {α : Type} (a : α) : M α := fun _ => (Outcome.ret a, [])

/-- Sequencing: the second computation runs only if the first returned, after
the history extended by the calls of the first. -/
def M.bind {α β : Type} (m : M α) (f : α → M β) : M β := fun h =>
  match m h with
  | (Outcome.ret a, es) =>
    match f a (h ++ es) with
    | (o, es2) => (o, es ++ es2)
  | (Outcome.rte_exit c, es) => (Outcome.rte_exit c, es)
  | (Outcome.out_of_fuel, es) => (Outcome.out_of_fuel, es)

instance : Monad M where
  pure := M.pure
  bind := M.bind

/-- The library routine `rte_exit(code, ...)`: terminates the process. -/
def rte_exit {α : Type} (code : Int) : M α := fun _ => (Outcome.rte_exit code, [])

/-- The statement `if (c) rte_exit(code, ...);`. -/
def exit_if (c : Prop) [Decidable c] (code : Int) : M Unit :=
  if c then rte_exit code else pure ()

/-- The model gives up: fuel exhausted. -/
def outOfFuel {α : Type} : M α := fun _ => (Outcome.out_of_fuel, [])

/-- Make call `c` and return the history that includes it. -/
def call (c : Call) : M Trace := fun h => (Outcome.ret (h ++ [c]), [c])

/-- Read the volatile flag `force_quit`. -/
def read_force_quit (env : Env) : M Bool := fun h =>
  (Outcome.ret (env.force_quit h), [Call.read_force_quit (env.force_quit h)])

/-- Make call `c`, which returns an `int` status. -/
def callStatus (env : Env) (c : Call) : M Int := do
  let t ← call c
  pure (env.status t)

/-- Make call `c`, which returns a pointer. -/
def callHandle (env : Env) (c : Call) : M Nat := do
  let t ← call c
  pure (env.handle t)

/-- Make call `c` and ignore what it returns. -/
def callVoid (c : Call) : M Unit := do
  let _ ← call c
  pure ()

/-! ## `init_port` -/

/-- The initialiser of `port_conf.txmode.offloads` in `init_port`. -/
def desired_tx_offloads (env : Env) : Nat :=
  u64 (env.DEV_TX_OFFLOAD_VLAN_INSERT |||
    env.DEV_TX_OFFLOAD_IPV4_CKSUM |||
    env.DEV_TX_OFFLOAD_UDP_CKSUM |||
    env.DEV_TX_OFFLOAD_TCP_CKSUM |||
    env.DEV_TX_OFFLOAD_SCTP_CKSUM |||
    env.DEV_TX_OFFLOAD_TCP_TSO)

/-- The 64-bit `&` of `port_conf.txmode.offloads &= dev_info.tx_offload_capa;`,
with `offloads` the left operand and `capa` the right one. -/
def offloads_and (offloads capa : Nat) : Nat :=
  u64 offloads &&& u64 capa

/-- The value of `port_conf.txmode.offloads` after the statement
`port_conf.txmode.offloads &= dev_info.tx_offload_capa;` of `init_port`. -/
def negotiated_tx_offloads (env : Env) (tx_offload_capa : Nat) : Nat :=
  offloads_and (desired_tx_offloads env) tx_offload_capa

/-- The loop `for (i = 0; i < nr_std_queues; i++) rte_eth_rx_queue_setup(...)`
of `init_port`, with `n` iterations left and loop variable `i`. -/
def rx_queue_setup_loop (env : Env) (port_id rx_offloads : Nat) : Nat → Nat → M Unit
  | 0, _ => pure ()
  | n + 1, i => do
    let ret ← callStatus env (Call.rte_eth_rx_queue_setup port_id i 512 rx_offloads)
    exit_if (ret < 0) EXIT_FAILURE
    rx_queue_setup_loop env port_id rx_offloads n (u16 (i + 1))

/-- The loop `for (i = 0; i < nr_std_queues; i++) rte_eth_tx_queue_setup(...)`
of `init_port`, with `n` iterations left and loop variable `i`. -/
def tx_queue_setup_loop (env : Env) (port_id tx_offloads : Nat) : Nat → Nat → M Unit
  | 0, _ => pure ()
  | n + 1, i => do
    let ret ← callStatus env (Call.rte_eth_tx_queue_setup port_id i 512 tx_offloads)
    exit_if (ret < 0) EXIT_FAILURE
    tx_queue_setup_loop env port_id tx_offloads n (u16 (i + 1))

/-- The function `init_port(port_id)`.  `port_conf.rxmode.offloads` is zero
(the designated initialiser leaves it so). -/
def init_port (env : Env) (port_id : Nat) : M Unit := do
  let t ← call (Call.rte_eth_dev_info_get port_id)
  let ret := env.status t
  exit_if (ret ≠ 0) EXIT_FAILURE
  let txmode_offloads := negotiated_tx_offloads env (env.tx_offload_capa t)
  let ret ← callStatus env (Call.rte_eth_dev_configure port_id
    (u16 (u32 (nr_std_queues + nr_hairpin_queues)))
    (u16 (u32 (nr_std_queues + nr_hairpin_queues))) txmode_offloads)
  exit_if (ret < 0) EXIT_FAILURE
  rx_queue_setup_loop env port_id 0 nr_std_queues 0
  tx_queue_setup_loop env port_id txmode_offloads nr_std_queues 0
  let ret ← callStatus env (Call.rte_eth_promiscuous_enable port_id)
  exit_if (ret ≠ 0) EXIT_FAILURE

/-! ## `init_ports`, `assert_link_status`, `start_ports` -/

/-- The loop `RTE_ETH_FOREACH_DEV(port_id) { body }` over the ports still to
visit. -/
def foreach_dev (body : Nat → M Unit) : List Nat → M Unit
  | [] => pure ()
  | port_id :: rest => do
    body port_id
    foreach_dev body rest

/-- The function `init_ports()`. -/
def init_ports (env : Env) : M Unit :=
  foreach_dev (fun port_id => init_port env port_id) env.ports

/-- The `do { ... } while (--rep_cnt);` loop of `assert_link_status`, entered
with `rep_cnt` and the current `link.link_status`; returns the final
`link_get_err` and `link.link_status`.  `g_port_id` is the file-scope
`port_id`, which is what the body passes to `rte_eth_link_get`.  The body is
never entered with `rep_cnt = 0` (it starts at 90 and the loop ends when the
decrement reaches zero); that case returns the initial `-EINVAL`. -/
def link_poll_loop (env : Env) (g_port_id : Nat) : Nat → Bool → M (Int × Bool)
  | 0, link => pure (-EINVAL, link)
  | rep_cnt + 1, link => do
    let t ← call (Call.rte_eth_link_get g_port_id)
    let link_get_err := env.status t
    let link := (env.link t).getD link
    if link_get_err = 0 ∧ link = true then
      pure (link_get_err, link)
    else do
      callVoid (Call.rte_delay_ms CHECK_INTERVAL)
      if rep_cnt = 0 then
        pure (link_get_err, link)
      else
        link_poll_loop env g_port_id rep_cnt link

/-- The function `assert_link_status(void)`.  It has no parameter: the port
it queries is the file-scope variable `port_id`, passed here as `g_port_id`.
`link` starts zeroed by `memset`, that is `ETH_LINK_DOWN`. -/
def assert_link_status (env : Env) (g_port_id : Nat) : M Unit := do
  let r ← link_poll_loop env g_port_id (u8 MAX_REPEAT_TIMES) false
  exit_if (r.1 < 0) EXIT_FAILURE
  exit_if (r.2 = false) EXIT_FAILURE

/-- The function `start_ports()`.  Its loop variable is a local `port_id` that
shadows the file-scope one; `assert_link_status()` still reads the file-scope
variable, whose current value is `g_port_id`. -/
def start_ports (env : Env) (g_port_id : Nat) : M Unit :=
  foreach_dev (fun port_id => do
    let ret ← callStatus env (Call.rte_eth_dev_start port_id)
    exit_if (ret < 0) EXIT_FAILURE
    assert_link_status env g_port_id) env.ports

/-! ## `main_loop` -/

/-- The loop `for (j = 0; j < nb_rx; j++) { ... }` of `main_loop`, with `n`
iterations left and loop variable `j`. -/
def packet_loop (env : Env) (port_id i : Nat) (mbufs : List Nat) : Nat → Nat → M Unit
  | 0, _ => pure ()
  | n + 1, j => do
    let m := mbufs.getD j 0
    let ret ← callStatus env (Call.query_counters port_id)
    exit_if (ret ≠ 0) EXIT_FAILURE
    callVoid (Call.dump_pkt_info m i)
    packet_loop env port_id i mbufs n (u16 (j + 1))

/-- The loop `for (buf = nb_tx; buf < nb_rx; buf++) rte_pktmbuf_free(mbufs[buf]);`
with `n` iterations left and loop variable `buf`. -/
def free_loop (mbufs : List Nat) : Nat → Nat → M Unit
  | 0, _ => pure ()
  | n + 1, buf => do
    callVoid (Call.rte_pktmbuf_free (mbufs.getD buf 0))
    free_loop mbufs n (u16 (buf + 1))

/-- The locals of `main_loop` that live across iterations: the array `mbufs`
and `nb_tx`. -/
structure Locals where
  mbufs : List Nat
  nb_tx : Nat
deriving DecidableEq, Repr

/-- One iteration of `for (i = 0; i < nr_std_queues; i++)` in `main_loop`:
the poll of queue `i`.  `rte_eth_rx_burst(port, i, mbufs, 32)` stores at most
32 buffers at the front of `mbufs` and returns how many. -/
def poll_queue (env : Env) (port_id i : Nat) (st : Locals) : M Locals := do
  let t ← call (Call.rte_eth_rx_burst port_id i 32)
  let bufs := (env.rx t).take 32
  let mbufs := bufs ++ st.mbufs.drop bufs.length
  let nb_rx := u16 bufs.length
  let nb_tx ←
    (if nb_rx ≠ 0 then do
      packet_loop env port_id i mbufs nb_rx 0
      let t ← call (Call.rte_eth_tx_burst port_id i (mbufs.take nb_rx))
      pure (u16 (env.tx t))
    else
      pure st.nb_tx)
  (if nb_tx < nb_rx then
    free_loop mbufs (nb_rx - nb_tx) nb_tx
  else
    pure ())
  pure { mbufs := mbufs, nb_tx := nb_tx }

/-- The loop `for (i = 0; i < nr_std_queues; i++) { ... }` of `main_loop`,
with `n` iterations left and loop variable `i`. -/
def queue_loop (env : Env) (port_id : Nat) : Nat → Nat → Locals → M Locals
  | 0, _, st => pure st
  | n + 1, i, st => do
    let st ← poll_queue env port_id i st
    queue_loop env port_id n (u16 (i + 1)) st

/-- The loop `while (!force_quit) { ... }` of `main_loop` followed by
`return 0;`.  Each evaluation of the condition uses one unit of fuel. -/
def while_loop (env : Env) (port_id : Nat) : Nat → Locals → M Int
  | 0, _ => outOfFuel
  | fuel + 1, st => do
    let force_quit ← read_force_quit env
    if force_quit then
      pure 0
    else do
      let st ← queue_loop env port_id nr_std_queues 0 st
      while_loop env port_id fuel st

/-- The function `main_loop(&port_id)`. -/
def main_loop (env : Env) (port_id : Nat) (fuel : Nat) : M Int :=
  while_loop env port_id fuel { mbufs := env.stack_mbufs, nb_tx := u16 env.stack_nb_tx }

/-! ## `main` -/

/-- Lines 275 to 312 of `main`: EAL start, port count, buffer pool, port
configuration, hairpin setup, port start, hairpin bind.  Returns `nr_ports`.
The file-scope `port_id` is 0 throughout (`port_id = 0;`). -/
def main_setup (env : Env) : M Nat := do
  let ret ← callStatus env Call.rte_eal_init
  exit_if (ret < 0) EXIT_FAILURE
  callVoid (Call.signal SIGINT)
  callVoid (Call.signal SIGTERM)
  callVoid Call.rte_eth_dev_count_avail
  let nr_ports := u16 env.ports.length
  exit_if (nr_ports = 0) EXIT_FAILURE
  let port_id := 0
  let mbuf_pool ← callHandle env (Call.rte_pktmbuf_pool_create 40960 128 0)
  exit_if (mbuf_pool = 0) EXIT_FAILURE
  init_ports env
  let _ ←
    (if nr_ports = 2 then
      callStatus env (Call.hairpin_two_ports_setup nr_hairpin_queues)
    else
      callStatus env (Call.hairpin_one_port_setup port_id nr_hairpin_queues))
  start_ports env port_id
  (if nr_ports = 2 then do
    let ret ← callStatus env Call.hairpin_two_ports_bind
    exit_if (ret ≠ 0) EXIT_FAILURE
  else
    pure ())
  pure nr_ports

/-- Lines 316 to 435 of `main`: the flow-rule installation sequence, with the
file-scope `port_id` and `nr_ports` as set before it. -/
def install_flows (env : Env) (nr_ports port_id : Nat) : M Unit := do
  let _ ← callHandle env (Call.create_gtp_u_decap_rss_flow port_id nr_std_queues queues)
  let _ ← callHandle env (Call.create_gtp_u_inner_ip_rss_flow port_id nr_std_queues queues)
  let _ ← callHandle env (Call.create_gtp_u_encap_flow port_id)
  let flow ← callHandle env (Call.create_gtp_u_psc_encap_flow port_id)
  exit_if (flow = 0) EXIT_FAILURE
  let flow ←
    (if nr_ports = 2 then callHandle env Call.hairpin_two_ports_flows_create
    else callHandle env Call.hairpin_one_port_flows_create)
  exit_if (flow = 0) EXIT_FAILURE
  let flow ← callHandle env (Call.create_flow_with_tag port_id)
  exit_if (flow = 0) EXIT_FAILURE
  let flow ← callHandle env (Call.create_flow_with_sampling port_id)
  exit_if (flow = 0) EXIT_FAILURE
  let flow ← callHandle env (Call.create_nic_flow_with_mirror port_id 2 1)
  exit_if (flow = 0) EXIT_FAILURE
  let ret ← callStatus env (Call.create_symmetric_rss_flow port_id nr_std_queues queues)
  exit_if (ret ≠ 0) EXIT_FAILURE
  let ret ← callStatus env (Call.create_flow_with_age port_id)
  exit_if (ret ≠ 0) EXIT_FAILURE
  let flow ← callHandle env (Call.create_gre_decap_rss_flow port_id nr_std_queues queues)
  exit_if (flow = 0) EXIT_FAILURE
  let flow ← callHandle env (Call.create_gre_encap_flow port_id)
  exit_if (flow = 0) EXIT_FAILURE
  (if nr_ports = 2 then do
    let ret ← callStatus env Call.create_hairpin_meta_flow
    exit_if (ret ≠ 0) EXIT_FAILURE
  else
    pure ())
  let ret ← callStatus env (Call.create_flow_with_counter port_id)
  exit_if (ret ≠ 0) EXIT_FAILURE
  let ret ← callStatus env (Call.query_counters port_id)
  exit_if (ret ≠ 0) EXIT_FAILURE
  let ret ← callStatus env (Call.create_modify_gtp_teid_flows port_id)
  exit_if (ret ≠ 0) EXIT_FAILURE

/-- Lines 450 to 468 of `main`: what follows the return of `main_loop`. -/
def main_teardown (env : Env) : M Int := do
  callVoid Call.rte_eal_mp_wait_lcore
  foreach_dev (fun port_id => callVoid (Call.rte_flow_flush port_id)) env.ports
  callVoid Call.rte_eth_dev_count_avail
  (if 2 = u16 env.ports.length then
    callVoid Call.hairpin_two_ports_unbind
  else
    pure ())
  foreach_dev (fun port_id => do
    callVoid (Call.rte_eth_dev_stop port_id)
    callVoid (Call.rte_eth_dev_close port_id)) env.ports
  callVoid Call.rte_eal_cleanup
  pure 0

/-- Lines 275 to 435 of `main`: everything before `main_loop(&port_id)`.
Returns the file-scope `port_id` as `main_loop` will see it. -/
def main_startup (env : Env) : M Nat := do
  let nr_ports ← main_setup env
  callVoid (Call.rte_eth_find_next 0)
  let port_id := u16 env.first_port
  install_flows env nr_ports port_id
  pure port_id

/-- The function `main`, with `fuel` bounding the evaluations of the
`while` condition of `main_loop`. -/
def main (env : Env) (fuel : Nat) : M Int := do
  let port_id ← main_startup env
  let _ ← main_loop env port_id fuel
  main_teardown env

/-! ## Vocabulary of the statements -/

/-- Calls made by `m` after history `h` all satisfy `P`. -/
def EmitsAt {α : Type} (m : M α) (h : Trace) (P : Call → Prop) : Prop :=
  ∀ c ∈ (m.run h).2, P c

/-- The calls of a complete `init_port(port_id)` started after history `h`. -/
def init_port_calls (env : Env) (port_id : Nat) (h : Trace) : Trace :=
  [Call.rte_eth_dev_info_get port_id,
    Call.rte_eth_dev_configure port_id 9 9
      (negotiated_tx_offloads env (env.tx_offload_capa (h ++ [Call.rte_eth_dev_info_get port_id])))]
  ++ (List.range 8).map (fun q => Call.rte_eth_rx_queue_setup port_id q 512 0)
  ++ (List.range 8).map (fun q => Call.rte_eth_tx_queue_setup port_id q 512
      (negotiated_tx_offloads env (env.tx_offload_capa (h ++ [Call.rte_eth_dev_info_get port_id]))))
  ++ [Call.rte_eth_promiscuous_enable port_id]

/-- The calls of the `for (j ...)` loop of `main_loop` over the received
buffers `bufs` of queue `i`. -/
def packet_calls (port_id i : Nat) (bufs : List Nat) : Trace :=
  bufs.flatMap (fun m => [Call.query_counters port_id, Call.dump_pkt_info m i])

/-- The buffers received by the poll of queue `i` that starts after history
`h`. -/
def received (env : Env) (port_id i : Nat) (h : Trace) : List Nat :=
  (env.rx (h ++ [Call.rte_eth_rx_burst port_id i 32])).take 32

/-- Reads of `force_quit` and calls of `rte_eth_rx_burst`. -/
def isFlagOrRx : Call → Bool
  | Call.read_force_quit _ => true
  | Call.rte_eth_rx_burst _ _ _ => true
  | _ => false

/-! ## Sample environments -/

/-- An environment in which every call succeeds, the link is up, no packet ever
arrives and `force_quit` is already set: two ports, 0 and 1, with the flag
values of `rte_ethdev.h`. -/
def quietEnv : Env :=
  { ports := [0, 1], status := fun _ => 0, handle := fun _ => 1, first_port := 0,
    tx_offload_capa := fun _ => 0x1f, link := fun _ => some true, rx := fun _ => [],
    tx := fun _ => 0, force_quit := fun _ => true, stack_nb_tx := 7, stack_mbufs := [],
    DEV_TX_OFFLOAD_VLAN_INSERT := 0x1, DEV_TX_OFFLOAD_IPV4_CKSUM := 0x2,
    DEV_TX_OFFLOAD_UDP_CKSUM := 0x4, DEV_TX_OFFLOAD_TCP_CKSUM := 0x8,
    DEV_TX_OFFLOAD_SCTP_CKSUM := 0x10, DEV_TX_OFFLOAD_TCP_TSO := 0x20 }

/-- As `quietEnv`, but every receive burst delivers the three buffers 10, 11,
12 and every transmit burst accepts one buffer. -/
def busyEnv : Env :=
  { quietEnv with rx := fun _ => [10, 11, 12], tx := fun _ => 1 }

/-- As `quietEnv`, but `force_quit` reads clear until 18 calls have been made
(the length of the history after two full passes over the queues). -/
def twoPassEnv : Env :=
  { quietEnv with force_quit := fun h => decide (18 ≤ h.length) }

/-- As `quietEnv`, but `create_gtp_u_decap_rss_flow` returns `NULL`; every
other builder returns a handle. -/
def decapFailEnv : Env :=
  { quietEnv with
    handle := fun h =>
      match h.getLast? with
      | some (Call.create_gtp_u_decap_rss_flow _ _ _) => 0
      | _ => 1 }

/-- As `quietEnv`, but `hairpin_two_ports_setup` returns -1; every other call
succeeds. -/
def setupFailEnv : Env :=
  { quietEnv with
    status := fun h =>
      match h.getLast? with
      | some (Call.hairpin_two_ports_setup _) => -1
      | _ => 0 }

/-- As `quietEnv`, but the link of port 1 is down at every query; the link of
port 0 is up. -/
def port1DownEnv : Env :=
  { quietEnv with
    link := fun h =>
      match h.getLast? with
      | some (Call.rte_eth_link_get 1) => some false
      | _ => some true }

/-! ## Classes of calls -/

/-- The rule-builder calls of `main` (lines 316 to 435). -/
def isRuleBuilder : Call → Bool
  | Call.create_gtp_u_decap_rss_flow _ _ _ => true
  | Call.create_gtp_u_inner_ip_rss_flow _ _ _ => true
  | Call.create_gtp_u_encap_flow _ => true
  | Call.create_gtp_u_psc_encap_flow _ => true
  | Call.hairpin_two_ports_flows_create => true
  | Call.hairpin_one_port_flows_create => true
  | Call.create_flow_with_tag _ => true
  | Call.create_flow_with_sampling _ => true
  | Call.create_nic_flow_with_mirror _ _ _ => true
  | Call.create_symmetric_rss_flow _ _ _ => true
  | Call.create_flow_with_age _ => true
  | Call.create_gre_decap_rss_flow _ _ _ => true
  | Call.create_gre_encap_flow _ => true
  | Call.create_hairpin_meta_flow => true
  | Call.create_flow_with_counter _ => true
  | Call.create_modify_gtp_teid_flows _ => true
  | _ => false

/-- The rule-builder calls that belong to one of the ten installation stages
(the hairpin flow creators belong to none). -/
def isStageCall : Call → Bool
  | Call.hairpin_two_ports_flows_create => false
  | Call.hairpin_one_port_flows_create => false
  | Call.create_hairpin_meta_flow => false
  | c => isRuleBuilder c

/-- The calls `init_port` makes. -/
def isInitCall : Call → Bool
  | Call.rte_eth_dev_info_get _ => true
  | Call.rte_eth_dev_configure _ _ _ _ => true
  | Call.rte_eth_rx_queue_setup _ _ _ _ => true
  | Call.rte_eth_tx_queue_setup _ _ _ _ => true
  | Call.rte_eth_promiscuous_enable _ => true
  | _ => false

/-- The calls `start_ports` makes. -/
def isStartCall : Call → Bool
  | Call.rte_eth_dev_start _ => true
  | Call.rte_eth_link_get _ => true
  | Call.rte_delay_ms _ => true
  | _ => false

/-- The hairpin setup and bind calls. -/
def isHairpinCall : Call → Bool
  | Call.hairpin_two_ports_setup _ => true
  | Call.hairpin_one_port_setup _ _ => true
  | Call.hairpin_two_ports_bind => true
  | _ => false

/-- Calls of `rte_eth_dev_start`, `rte_eth_link_get` and the hairpin setup and
bind calls. -/
def isStartOrHairpin (c : Call) : Bool :=
  isStartCall c || isHairpinCall c

/-- The hairpin setup call `main` makes for `nr_ports` ports, the file-scope
`port_id` being 0 at that point. -/
def hairpin_setup_call (nr_ports : Nat) : Call :=
  if nr_ports = 2 then Call.hairpin_two_ports_setup nr_hairpin_queues
  else Call.hairpin_one_port_setup 0 nr_hairpin_queues

/-- The calls of the flow-rule stage: the rule builders and `query_counters`. -/
def isFlowCall : Call → Bool
  | Call.query_counters _ => true
  | c => isRuleBuilder c

/-- The calls `main_loop` makes. -/
def isLoopCall : Call → Bool
  | Call.read_force_quit _ => true
  | Call.rte_eth_rx_burst _ _ _ => true
  | Call.query_counters _ => true
  | Call.dump_pkt_info _ _ => true
  | Call.rte_eth_tx_burst _ _ _ => true
  | Call.rte_pktmbuf_free _ => true
  | _ => false

/-- The calls `main` makes after `main_loop` has returned. -/
def isTeardownCall : Call → Bool
  | Call.rte_eal_mp_wait_lcore => true
  | Call.rte_flow_flush _ => true
  | Call.rte_eth_dev_count_avail => true
  | Call.hairpin_two_ports_unbind => true
  | Call.rte_eth_dev_stop _ => true
  | Call.rte_eth_dev_close _ => true
  | Call.rte_eal_cleanup => true
  | _ => false

/-- The calls `main` can make once `main_setup` is over. -/
def isAfterSetup (c : Call) : Bool :=
  decide (c = Call.rte_eth_find_next 0) || isFlowCall c || isLoopCall c || isTeardownCall c

/-- The calls of the teardown of `main` for the discovered ports `ports`. -/
def teardown_calls (ports : List Nat) : Trace :=
  [Call.rte_eal_mp_wait_lcore]
  ++ ports.map Call.rte_flow_flush
  ++ [Call.rte_eth_dev_count_avail]
  ++ (if 2 = u16 ports.length then [Call.hairpin_two_ports_unbind] else [])
  ++ ports.flatMap (fun p => [Call.rte_eth_dev_stop p, Call.rte_eth_dev_close p])
  ++ [Call.rte_eal_cleanup]

/-- The calls of a complete flow-rule stage for `nr_ports` ports on port
`port_id`. -/
def install_flows_calls (nr_ports port_id : Nat) : Trace :=
  [Call.create_gtp_u_decap_rss_flow port_id nr_std_queues queues,
    Call.create_gtp_u_inner_ip_rss_flow port_id nr_std_queues queues,
    Call.create_gtp_u_encap_flow port_id,
    Call.create_gtp_u_psc_encap_flow port_id,
    (if nr_ports = 2 then Call.hairpin_two_ports_flows_create
      else Call.hairpin_one_port_flows_create),
    Call.create_flow_with_tag port_id,
    Call.create_flow_with_sampling port_id,
    Call.create_nic_flow_with_mirror port_id 2 1,
    Call.create_symmetric_rss_flow port_id nr_std_queues queues,
    Call.create_flow_with_age port_id,
    Call.create_gre_decap_rss_flow port_id nr_std_queues queues,
    Call.create_gre_encap_flow port_id]
  ++ (if nr_ports = 2 then [Call.create_hairpin_meta_flow] else [])
  ++ [Call.create_flow_with_counter port_id,
    Call.query_counters port_id,
    Call.create_modify_gtp_teid_flows port_id]

/-- Every call succeeds: every status is 0, every handle is non-`NULL`, every
link query reports the link up. -/
def AllSucceed (env : Env) : Prop :=
  (∀ h, env.status h = 0) ∧ (∀ h, env.handle h ≠ 0) ∧ (∀ h, env.link h = some true)

/-- The computation `m` returns after every history, with a value satisfying
`Q`. -/
def Succeeds {α : Type} (m : M α) (Q : α → Prop) : Prop :=
  ∀ h, ∃ a es, m.run h = (Outcome.ret a, es) ∧ Q a

/-- The first five calls of `main`. -/
def boot_calls : Trace :=
  [Call.rte_eal_init, Call.signal SIGINT, Call.signal SIGTERM, Call.rte_eth_dev_count_avail,
    Call.rte_pktmbuf_pool_create 40960 128 0]

/-! # Theorems -/

/-! ## Basic facts about the execution monad -/

@[simp] theorem run_pure {α : Type} (a : α) (h : Trace) :
    (pure a : M α).run h = (Outcome.ret a, []) := rfl

theorem run_bind {α β : Type} (m : M α) (f : α → M β) (h : Trace) :
    (m >>= f).run h =
      match m.run h with
      | (Outcome.ret a, es) => (((f a).run (h ++ es)).1, es ++ ((f a).run (h ++ es)).2)
      | (Outcome.rte_exit c, es) => (Outcome.rte_exit c, es)
      | (Outcome.out_of_fuel, es) => (Outcome.out_of_fuel, es) := rfl

@[simp] theorem run_rte_exit {α : Type} (c : Int) (h : Trace) :
    (rte_exit c : M α).run h = (Outcome.rte_exit c, []) := rfl

@[simp] theorem run_outOfFuel {α : Type} (h : Trace) :
    (outOfFuel : M α).run h = (Outcome.out_of_fuel, []) := rfl

@[simp] theorem run_call (c : Call) (h : Trace) :
    (call c).run h = (Outcome.ret (h ++ [c]), [c]) := rfl

@[simp] theorem run_call_bind {β : Type} (c : Call) (f : Trace → M β) (h : Trace) :
    (call c >>= f).run h =
      (((f (h ++ [c])).run (h ++ [c])).1, c :: ((f (h ++ [c])).run (h ++ [c])).2) := rfl

@[simp] theorem run_callStatus_bind {β : Type} (env : Env) (c : Call) (f : Int → M β)
    (h : Trace) :
    (callStatus env c >>= f).run h =
      (((f (env.status (h ++ [c]))).run (h ++ [c])).1,
        c :: ((f (env.status (h ++ [c]))).run (h ++ [c])).2) := rfl

@[simp] theorem run_callVoid_bind {β : Type} (c : Call) (f : Unit → M β) (h : Trace) :
    (callVoid c >>= f).run h =
      (((f ()).run (h ++ [c])).1, c :: ((f ()).run (h ++ [c])).2) := rfl

theorem run_pure_bind {α β : Type} (a : α) (f : α → M β) (h : Trace) :
    (pure a >>= f).run h = (f a).run h := by
  show M.bind (M.pure a) f h = f a h
  simp [M.bind, M.pure]

theorem run_bind_of_ret {α β : Type} {m : M α} {f : α → M β} {h : Trace} {a : α} {es : Trace}
    (hm : m.run h = (Outcome.ret a, es)) :
    (m >>= f).run h = (((f a).run (h ++ es)).1, es ++ ((f a).run (h ++ es)).2) := by
  rw [run_bind, hm]

/-- A bind returns exactly when both parts return; the calls are those of the
first part followed by those of the second. -/
theorem run_bind_eq_ret {α β : Type} (m : M α) (f : α → M β) (h : Trace) (b : β) (es : Trace) :
    (m >>= f).run h = (Outcome.ret b, es) ↔
      ∃ a es1 es2, m.run h = (Outcome.ret a, es1) ∧
        (f a).run (h ++ es1) = (Outcome.ret b, es2) ∧ es = es1 ++ es2 := by
  rw [run_bind]
  rcases hm : m.run h with ⟨o, es1⟩
  cases o with
  | ret a =>
    constructor
    · intro hh
      simp only [Prod.mk.injEq] at hh
      exact ⟨a, es1, ((f a).run (h ++ es1)).2, rfl, Prod.ext hh.1 rfl, hh.2.symm⟩
    · rintro ⟨a1, e1, e2, h1, h2, h3⟩
      simp only [Prod.mk.injEq, Outcome.ret.injEq] at h1
      obtain ⟨rfl, rfl⟩ := h1
      simp [h2, h3]
  | rte_exit c =>
    constructor
    · intro hh; simp at hh
    · rintro ⟨a1, e1, e2, h1, _, _⟩; simp at h1
  | out_of_fuel =>
    constructor
    · intro hh; simp at hh
    · rintro ⟨a1, e1, e2, h1, _, _⟩; simp at h1

/-- The guard `if (c) rte_exit(...)` returns exactly when `c` is false. -/
theorem run_exit_if_eq_ret (c : Prop) [Decidable c] (k : Int) (h : Trace) (u : Unit) (es : Trace) :
    (exit_if c k).run h = (Outcome.ret u, es) ↔ ¬ c ∧ es = [] := by
  unfold exit_if
  by_cases hc : c
  · simp [hc]
  · simp [hc, eq_comm]

theorem run_exit_if (c : Prop) [Decidable c] (k : Int) (h : Trace) :
    (exit_if c k).run h = if c then (Outcome.rte_exit k, []) else (Outcome.ret (), []) := by
  unfold exit_if
  by_cases hc : c <;> simp [hc]

theorem emitsAt_bind {α β : Type} {m : M α} {f : α → M β} {h : Trace} {P : Call → Prop}
    (hm : EmitsAt m h P)
    (hf : ∀ a es, m.run h = (Outcome.ret a, es) → EmitsAt (f a) (h ++ es) P) :
    EmitsAt (m >>= f) h P := by
  intro c hc
  rw [run_bind] at hc
  rcases hr : m.run h with ⟨o, es1⟩
  have hm1 : ∀ c ∈ es1, P c := by
    intro c hc1
    apply hm c
    rw [hr]; exact hc1
  rw [hr] at hc
  cases o with
  | ret a =>
    simp only [List.mem_append] at hc
    rcases hc with hc | hc
    · exact hm1 c hc
    · exact hf a es1 hr c hc
  | rte_exit k => exact hm1 c hc
  | out_of_fuel => exact hm1 c hc

theorem emitsAt_pure {α : Type} (a : α) (h : Trace) (P : Call → Prop) :
    EmitsAt (pure a : M α) h P := by
  intro c hc; simp at hc

theorem emitsAt_exit_if (c : Prop) [Decidable c] (k : Int) (h : Trace) (P : Call → Prop) :
    EmitsAt (exit_if c k) h P := by
  intro x hx
  by_cases hc : c <;> simp [run_exit_if, hc] at hx

theorem emitsAt_call {c : Call} {h : Trace} {P : Call → Prop} (hP : P c) :
    EmitsAt (call c) h P := by
  intro x hx
  simp at hx
  subst hx; exact hP

theorem emitsAt_callStatus {env : Env} {c : Call} {h : Trace} {P : Call → Prop} (hP : P c) :
    EmitsAt (callStatus env c) h P :=
  emitsAt_bind (emitsAt_call hP) (fun _ _ _ => emitsAt_pure _ _ _)

theorem emitsAt_callHandle {env : Env} {c : Call} {h : Trace} {P : Call → Prop} (hP : P c) :
    EmitsAt (callHandle env c) h P :=
  emitsAt_bind (emitsAt_call hP) (fun _ _ _ => emitsAt_pure _ _ _)

theorem emitsAt_callVoid {c : Call} {h : Trace} {P : Call → Prop} (hP : P c) :
    EmitsAt (callVoid c) h P :=
  emitsAt_bind (emitsAt_call hP) (fun _ _ _ => emitsAt_pure _ _ _)

theorem emitsAt_mono {α : Type} {m : M α} {h : Trace} {P Q : Call → Prop}
    (hm : EmitsAt m h P) (hPQ : ∀ c, P c → Q c) : EmitsAt m h Q :=
  fun c hc => hPQ c (hm c hc)

@[simp] theorem run_callStatus (env : Env) (c : Call) (h : Trace) :
    (callStatus env c).run h = (Outcome.ret (env.status (h ++ [c])), [c]) := rfl

@[simp] theorem run_callHandle (env : Env) (c : Call) (h : Trace) :
    (callHandle env c).run h = (Outcome.ret (env.handle (h ++ [c])), [c]) := rfl

@[simp] theorem run_callVoid (c : Call) (h : Trace) :
    (callVoid c).run h = (Outcome.ret (), [c]) := rfl

/-! ## `init_port` -/

theorem emits_rx_queue_setup_loop (env : Env) (port_id off : Nat) (n i : Nat) (h : Trace)
    (hn : i + n < 2 ^ 16) :
    EmitsAt (rx_queue_setup_loop env port_id off n i) h
      (fun c => ∃ q, i ≤ q ∧ q < i + n ∧ c = Call.rte_eth_rx_queue_setup port_id q 512 off) := by
  induction n generalizing i h with
  | zero => exact emitsAt_pure _ _ _
  | succ n ih =>
    unfold rx_queue_setup_loop
    refine emitsAt_bind (emitsAt_callStatus ⟨i, le_refl _, by omega, rfl⟩) (fun a es _ => ?_)
    refine emitsAt_bind (emitsAt_exit_if _ _ _ _) (fun _ es2 _ => ?_)
    have hi : u16 (i + 1) = i + 1 := by
      unfold u16; exact Nat.mod_eq_of_lt (by omega)
    rw [hi]
    refine emitsAt_mono (ih (i + 1) _ (by omega)) ?_
    rintro c ⟨q, h1, h2, h3⟩
    exact ⟨q, by omega, by omega, h3⟩

theorem emits_tx_queue_setup_loop (env : Env) (port_id off : Nat) (n i : Nat) (h : Trace)
    (hn : i + n < 2 ^ 16) :
    EmitsAt (tx_queue_setup_loop env port_id off n i) h
      (fun c => ∃ q, i ≤ q ∧ q < i + n ∧ c = Call.rte_eth_tx_queue_setup port_id q 512 off) := by
  induction n generalizing i h with
  | zero => exact emitsAt_pure _ _ _
  | succ n ih =>
    unfold tx_queue_setup_loop
    refine emitsAt_bind (emitsAt_callStatus ⟨i, le_refl _, by omega, rfl⟩) (fun a es _ => ?_)
    refine emitsAt_bind (emitsAt_exit_if _ _ _ _) (fun _ es2 _ => ?_)
    have hi : u16 (i + 1) = i + 1 := by
      unfold u16; exact Nat.mod_eq_of_lt (by omega)
    rw [hi]
    refine emitsAt_mono (ih (i + 1) _ (by omega)) ?_
    rintro c ⟨q, h1, h2, h3⟩
    exact ⟨q, by omega, by omega, h3⟩

theorem ret_rx_queue_setup_loop (env : Env) (port_id off : Nat) (n i : Nat) (h : Trace)
    (u : Unit) (es : Trace) (hn : i + n < 2 ^ 16)
    (hr : (rx_queue_setup_loop env port_id off n i).run h = (Outcome.ret u, es)) :
    es = (List.range n).map (fun k => Call.rte_eth_rx_queue_setup port_id (i + k) 512 off) := by
  induction n generalizing i h es with
  | zero =>
    unfold rx_queue_setup_loop at hr
    simp at hr
    simp [hr]
  | succ n ih =>
    unfold rx_queue_setup_loop at hr
    simp only [run_bind_eq_ret, run_callStatus, run_exit_if_eq_ret, Prod.mk.injEq,
      Outcome.ret.injEq] at hr
    obtain ⟨a, es1, es2, ⟨-, rfl⟩, ⟨u1, es3, es4, ⟨-, rfl⟩, hloop, rfl⟩, rfl⟩ := hr
    have hi : u16 (i + 1) = i + 1 := by
      unfold u16; exact Nat.mod_eq_of_lt (by omega)
    rw [hi] at hloop
    rw [ih (i + 1) _ _ (by omega) hloop, List.range_succ_eq_map]
    simp [Function.comp_def, Nat.add_assoc, Nat.add_comm 1]

theorem ret_tx_queue_setup_loop (env : Env) (port_id off : Nat) (n i : Nat) (h : Trace)
    (u : Unit) (es : Trace) (hn : i + n < 2 ^ 16)
    (hr : (tx_queue_setup_loop env port_id off n i).run h = (Outcome.ret u, es)) :
    es = (List.range n).map (fun k => Call.rte_eth_tx_queue_setup port_id (i + k) 512 off) := by
  induction n generalizing i h es with
  | zero =>
    unfold tx_queue_setup_loop at hr
    simp at hr
    simp [hr]
  | succ n ih =>
    unfold tx_queue_setup_loop at hr
    simp only [run_bind_eq_ret, run_callStatus, run_exit_if_eq_ret, Prod.mk.injEq,
      Outcome.ret.injEq] at hr
    obtain ⟨a, es1, es2, ⟨-, rfl⟩, ⟨u1, es3, es4, ⟨-, rfl⟩, hloop, rfl⟩, rfl⟩ := hr
    have hi : u16 (i + 1) = i + 1 := by
      unfold u16; exact Nat.mod_eq_of_lt (by omega)
    rw [hi] at hloop
    rw [ih (i + 1) _ _ (by omega) hloop, List.range_succ_eq_map]
    simp [Function.comp_def, Nat.add_assoc, Nat.add_comm 1]

theorem queue_total_eq : u16 (u32 (nr_std_queues + nr_hairpin_queues)) = 9 := by decide

theorem emits_init_port (env : Env) (port_id : Nat) (h : Trace) :
    EmitsAt (init_port env port_id) h (fun c => c ∈ init_port_calls env port_id h) := by
  unfold init_port
  refine emitsAt_bind (emitsAt_call (by simp [init_port_calls])) (fun t es ht => ?_)
  simp only [run_call, Prod.mk.injEq, Outcome.ret.injEq] at ht
  obtain ⟨rfl, rfl⟩ := ht
  refine emitsAt_bind (emitsAt_exit_if _ _ _ _) (fun _ _ _ => ?_)
  refine emitsAt_bind (emitsAt_callStatus (by simp [init_port_calls, queue_total_eq]))
    (fun _ _ _ => ?_)
  refine emitsAt_bind (emitsAt_exit_if _ _ _ _) (fun _ _ _ => ?_)
  refine emitsAt_bind (emitsAt_mono (emits_rx_queue_setup_loop env port_id 0 nr_std_queues 0 _
    (by decide)) ?_) (fun _ _ _ => ?_)
  · rintro c ⟨q, -, hq, rfl⟩
    simp only [nr_std_queues] at hq
    simp only [init_port_calls, List.mem_append, List.mem_map, List.mem_range]
    exact Or.inl (Or.inl (Or.inr ⟨q, by omega, rfl⟩))
  refine emitsAt_bind (emitsAt_mono (emits_tx_queue_setup_loop env port_id _ nr_std_queues 0 _
    (by decide)) ?_) (fun _ _ _ => ?_)
  · rintro c ⟨q, -, hq, rfl⟩
    simp only [nr_std_queues] at hq
    simp only [init_port_calls, List.mem_append, List.mem_map, List.mem_range]
    exact Or.inl (Or.inr ⟨q, by omega, rfl⟩)
  refine emitsAt_bind (emitsAt_callStatus (by simp [init_port_calls])) (fun _ _ _ => ?_)
  exact emitsAt_exit_if _ _ _ _

theorem ret_init_port (env : Env) (port_id : Nat) (h : Trace) (u : Unit) (es : Trace)
    (hr : (init_port env port_id).run h = (Outcome.ret u, es)) :
    es = init_port_calls env port_id h := by
  unfold init_port at hr
  simp only [run_bind_eq_ret, run_callStatus, run_call, run_exit_if_eq_ret, Prod.mk.injEq,
    Outcome.ret.injEq] at hr
  obtain ⟨t, es1, es2, ⟨rfl, rfl⟩, ⟨u1, es3, es4, ⟨-, rfl⟩, ⟨a, es5, es6, ⟨-, rfl⟩,
    ⟨u2, es7, es8, ⟨-, rfl⟩, ⟨u3, es9, es10, hrx, ⟨u4, es11, es12, htx,
      ⟨b, es13, es14, ⟨-, rfl⟩, ⟨-, rfl⟩, rfl⟩, rfl⟩, rfl⟩, rfl⟩, rfl⟩, rfl⟩, rfl⟩ := hr
  have h1 := ret_rx_queue_setup_loop env port_id 0 nr_std_queues 0 _ _ _ (by decide) hrx
  have h2 := ret_tx_queue_setup_loop env port_id _ nr_std_queues 0 _ _ _ (by decide) htx
  subst h1 h2
  clear hrx htx
  simp only [queue_total_eq]
  simp [init_port_calls, nr_std_queues]

theorem run_exit_if_bind {β : Type} (c : Prop) [Decidable c] (k : Int) (f : Unit → M β)
    (h : Trace) :
    (exit_if c k >>= f).run h = if c then (Outcome.rte_exit k, []) else (f ()).run h := by
  unfold exit_if
  by_cases hc : c
  · simp only [hc, if_true]; rfl
  · simp only [hc, if_false]; exact run_pure_bind _ _ _

theorem testBit_u64 (x i : Nat) : (u64 x).testBit i = (decide (i < 64) && x.testBit i) := by
  unfold u64; exact Nat.testBit_mod_two_pow x 64 i

theorem offloads_and_comm (d c : Nat) : offloads_and d c = offloads_and c d := by
  unfold offloads_and; exact Nat.land_comm _ _

theorem offloads_and_idem (d c : Nat) : offloads_and (offloads_and d c) c = offloads_and d c := by
  unfold offloads_and
  apply Nat.eq_of_testBit_eq
  intro i
  simp only [Nat.testBit_land, testBit_u64]
  cases decide (i < 64) <;> cases d.testBit i <;> cases c.testBit i <;> rfl

theorem offloads_and_subset_right (d c i : Nat) (hb : (offloads_and d c).testBit i = true) :
    c.testBit i = true := by
  unfold offloads_and at hb
  simp only [Nat.testBit_land, testBit_u64, Bool.and_eq_true] at hb
  exact hb.2.2

theorem offloads_and_subset_left (d c i : Nat) (hb : (offloads_and d c).testBit i = true) :
    d.testBit i = true := by
  unfold offloads_and at hb
  simp only [Nat.testBit_land, testBit_u64, Bool.and_eq_true] at hb
  exact hb.1.2

theorem desired_tx_offloads_bits (env : Env) (i : Nat)
    (hb : (desired_tx_offloads env).testBit i = true) :
    env.DEV_TX_OFFLOAD_VLAN_INSERT.testBit i = true ∨
    env.DEV_TX_OFFLOAD_IPV4_CKSUM.testBit i = true ∨
    env.DEV_TX_OFFLOAD_UDP_CKSUM.testBit i = true ∨
    env.DEV_TX_OFFLOAD_TCP_CKSUM.testBit i = true ∨
    env.DEV_TX_OFFLOAD_SCTP_CKSUM.testBit i = true ∨
    env.DEV_TX_OFFLOAD_TCP_TSO.testBit i = true := by
  unfold desired_tx_offloads at hb
  simp only [testBit_u64, Nat.testBit_lor, Bool.and_eq_true, Bool.or_eq_true] at hb
  tauto

/-! ## C8 and C9: what `init_port` requests -/

/-- C8: `init_port` asks `rte_eth_dev_configure` for `nr_std_queues +
nr_hairpin_queues` = 9 receive and 9 transmit queues on the port it was given,
whatever the device reports, and it makes that call whenever
`rte_eth_dev_info_get` succeeded; every queue setup call it makes is for that
port, a standard index below `nr_std_queues` and 512 descriptors; and an
`init_port` that returns has set up receive queues 0..7 and then transmit
queues 0..7, each exactly once. -/
theorem init_port_queue_counts (env : Env) (port_id : Nat) (h : Trace) :
    (∀ c ∈ ((init_port env port_id).run h).2,
      (∀ p a b m, c = Call.rte_eth_dev_configure p a b m →
        p = port_id ∧ a = nr_std_queues + nr_hairpin_queues ∧
          b = nr_std_queues + nr_hairpin_queues ∧ a = 9) ∧
      (∀ p q n m, c = Call.rte_eth_rx_queue_setup p q n m ∨
          c = Call.rte_eth_tx_queue_setup p q n m →
        p = port_id ∧ q < nr_std_queues ∧ n = 512)) ∧
    (env.status (h ++ [Call.rte_eth_dev_info_get port_id]) = 0 →
      ∃ m, ((init_port env port_id).run h).2.take 2 =
        [Call.rte_eth_dev_info_get port_id, Call.rte_eth_dev_configure port_id 9 9 m]) ∧
    (∀ u, ((init_port env port_id).run h).1 = Outcome.ret u →
      ∃ m, ((init_port env port_id).run h).2 =
        [Call.rte_eth_dev_info_get port_id, Call.rte_eth_dev_configure port_id 9 9 m]
        ++ (List.range nr_std_queues).map (fun q => Call.rte_eth_rx_queue_setup port_id q 512 0)
        ++ (List.range nr_std_queues).map (fun q => Call.rte_eth_tx_queue_setup port_id q 512 m)
        ++ [Call.rte_eth_promiscuous_enable port_id]) := by
  refine ⟨?_, ?_, ?_⟩
  · intro c hc
    have hmem := emits_init_port env port_id h c hc
    simp only [init_port_calls, List.mem_append, List.mem_map, List.mem_range, List.mem_cons,
      List.mem_singleton, List.not_mem_nil, or_false] at hmem
    rcases hmem with (((rfl | rfl) | ⟨q, hq, rfl⟩) | ⟨q, hq, rfl⟩) | rfl
    all_goals refine ⟨fun p a b m hh => ?_, fun p q n m hh => ?_⟩
    all_goals first
      | (cases hh; exact ⟨rfl, rfl, rfl, rfl⟩)
      | (rcases hh with hh | hh <;> cases hh <;> exact ⟨rfl, hq, rfl⟩)
  · intro h0
    refine ⟨negotiated_tx_offloads env
      (env.tx_offload_capa (h ++ [Call.rte_eth_dev_info_get port_id])), ?_⟩
    unfold init_port
    simp only [run_call_bind, run_exit_if_bind, run_callStatus_bind, h0, ne_eq, not_true,
      if_false, queue_total_eq]
    rfl
  · intro u hu
    refine ⟨negotiated_tx_offloads env
      (env.tx_offload_capa (h ++ [Call.rte_eth_dev_info_get port_id])), ?_⟩
    have hr : (init_port env port_id).run h = (Outcome.ret u, ((init_port env port_id).run h).2) :=
      Prod.ext hu rfl
    rw [ret_init_port env port_id h u _ hr]
    rfl

/-- Witness for C8: a device whose calls all succeed. -/
theorem init_port_queue_counts_witness :
    ∃ m, ((init_port
      { ports := [0], status := fun _ => 0, handle := fun _ => 1, first_port := 0,
        tx_offload_capa := fun _ => 3, link := fun _ => some true, rx := fun _ => [],
        tx := fun _ => 0, force_quit := fun _ => true, stack_nb_tx := 0, stack_mbufs := [],
        DEV_TX_OFFLOAD_VLAN_INSERT := 1, DEV_TX_OFFLOAD_IPV4_CKSUM := 2,
        DEV_TX_OFFLOAD_UDP_CKSUM := 4, DEV_TX_OFFLOAD_TCP_CKSUM := 8,
        DEV_TX_OFFLOAD_SCTP_CKSUM := 16, DEV_TX_OFFLOAD_TCP_TSO := 32 } 0).run []).2 =
        [Call.rte_eth_dev_info_get 0, Call.rte_eth_dev_configure 0 9 9 m]
        ++ (List.range nr_std_queues).map (fun q => Call.rte_eth_rx_queue_setup 0 q 512 0)
        ++ (List.range nr_std_queues).map (fun q => Call.rte_eth_tx_queue_setup 0 q 512 m)
        ++ [Call.rte_eth_promiscuous_enable 0] :=
  (init_port_queue_counts _ 0 []).2.2 () (by decide)

/-- C9: the 64-bit intersection `offloads & capa` used by `init_port` is
commutative and idempotent, and the mask `init_port` passes to
`rte_eth_dev_configure` and to every `rte_eth_tx_queue_setup` (the copy in
`txq_conf.offloads`) is that intersection of the desired set with the
capability mask just reported by `rte_eth_dev_info_get`: it has no bit outside
the capability mask and no bit outside the six desired flags. -/
theorem tx_offload_intersection (env : Env) (port_id : Nat) (h : Trace) :
    (∀ d c : Nat, offloads_and d c = offloads_and c d ∧
      offloads_and (offloads_and d c) c = offloads_and d c) ∧
    (∀ x ∈ ((init_port env port_id).run h).2, ∀ p a b q n m,
      x = Call.rte_eth_dev_configure p a b m ∨ x = Call.rte_eth_tx_queue_setup p q n m →
        m = offloads_and (desired_tx_offloads env)
          (env.tx_offload_capa (h ++ [Call.rte_eth_dev_info_get port_id])) ∧
        (∀ i, m.testBit i = true →
          (env.tx_offload_capa (h ++ [Call.rte_eth_dev_info_get port_id])).testBit i = true) ∧
        (∀ i, m.testBit i = true →
          env.DEV_TX_OFFLOAD_VLAN_INSERT.testBit i = true ∨
          env.DEV_TX_OFFLOAD_IPV4_CKSUM.testBit i = true ∨
          env.DEV_TX_OFFLOAD_UDP_CKSUM.testBit i = true ∨
          env.DEV_TX_OFFLOAD_TCP_CKSUM.testBit i = true ∨
          env.DEV_TX_OFFLOAD_SCTP_CKSUM.testBit i = true ∨
          env.DEV_TX_OFFLOAD_TCP_TSO.testBit i = true)) := by
  refine ⟨fun d c => ⟨offloads_and_comm d c, offloads_and_idem d c⟩, ?_⟩
  intro x hx p a b q n m hm
  have hmem := emits_init_port env port_id h x hx
  have key : m = offloads_and (desired_tx_offloads env)
      (env.tx_offload_capa (h ++ [Call.rte_eth_dev_info_get port_id])) := by
    simp only [init_port_calls, negotiated_tx_offloads, List.mem_append, List.mem_map,
      List.mem_range, List.mem_cons, List.mem_singleton, List.not_mem_nil, or_false] at hmem
    rcases hmem with (((rfl | rfl) | ⟨q1, hq, rfl⟩) | ⟨q1, hq, rfl⟩) | rfl <;>
      rcases hm with hm | hm <;> cases hm <;> rfl
  refine ⟨key, ?_, ?_⟩
  · intro i hi
    rw [key] at hi
    exact offloads_and_subset_right _ _ i hi
  · intro i hi
    rw [key] at hi
    exact desired_tx_offloads_bits env i (offloads_and_subset_left _ _ i hi)

/-! ## `main_loop` -/

theorem u16_of_lt {x : Nat} (hx : x < 2 ^ 16) : u16 x = x := by
  unfold u16; exact Nat.mod_eq_of_lt hx

theorem ret_packet_loop (env : Env) (port_id i : Nat) (mbufs : List Nat) (n j : Nat)
    (h : Trace) (u : Unit) (es : Trace) (hn : j + n < 2 ^ 16)
    (hr : (packet_loop env port_id i mbufs n j).run h = (Outcome.ret u, es)) :
    es = (List.range n).flatMap
      (fun k => [Call.query_counters port_id, Call.dump_pkt_info (mbufs.getD (j + k) 0) i]) := by
  induction n generalizing j h es with
  | zero =>
    unfold packet_loop at hr
    simp at hr
    simp [hr]
  | succ n ih =>
    unfold packet_loop at hr
    simp only [run_bind_eq_ret, run_callStatus, run_callVoid, run_exit_if_eq_ret, Prod.mk.injEq,
      Outcome.ret.injEq] at hr
    obtain ⟨a, es1, es2, ⟨-, rfl⟩, ⟨u1, es3, es4, ⟨-, rfl⟩,
      ⟨u2, es5, es6, ⟨-, rfl⟩, hloop, rfl⟩, rfl⟩, rfl⟩ := hr
    rw [u16_of_lt (by omega)] at hloop
    rw [ih (j + 1) _ _ (by omega) hloop, List.range_succ_eq_map]
    simp [List.flatMap_map, Function.comp_def, Nat.add_assoc, Nat.add_comm 1]

theorem run_free_loop (mbufs : List Nat) (n buf : Nat) (h : Trace) (hn : buf + n < 2 ^ 16) :
    (free_loop mbufs n buf).run h =
      (Outcome.ret (),
        (List.range n).map (fun k => Call.rte_pktmbuf_free (mbufs.getD (buf + k) 0))) := by
  induction n generalizing buf h with
  | zero => rfl
  | succ n ih =>
    unfold free_loop
    rw [run_callVoid_bind, u16_of_lt (by omega), ih (buf + 1) _ (by omega),
      List.range_succ_eq_map]
    simp [Function.comp_def, Nat.add_assoc, Nat.add_comm 1]

theorem range_map_getD_append (l r : List Nat) :
    (List.range l.length).map (fun k => (l ++ r).getD k 0) = l := by
  apply List.ext_getElem
  · simp
  · intro n h1 h2
    simp only [List.getElem_map, List.getElem_range]
    rw [List.getD_append _ _ _ _ h2, List.getD_eq_getElem _ _ h2]

theorem range_map_getD_drop (l r : List Nat) (b : Nat) :
    (List.range (l.length - b)).map (fun k => (l ++ r).getD (b + k) 0) = l.drop b := by
  apply List.ext_getElem
  · simp
  · intro n h1 h2
    simp only [List.length_map, List.length_range] at h1
    simp only [List.getElem_map, List.getElem_range, List.getElem_drop]
    rw [List.getD_append _ _ _ _ (by omega), List.getD_eq_getElem _ _ (by omega)]

theorem received_length_le (env : Env) (port_id i : Nat) (h : Trace) :
    (received env port_id i h).length ≤ 32 := by
  unfold received
  simp [List.length_take]

/-- A poll that receives nothing makes no further call and keeps `nb_tx`. -/
theorem run_poll_queue_nil (env : Env) (port_id i : Nat) (st : Locals) (h : Trace)
    (h0 : received env port_id i h = []) :
    (poll_queue env port_id i st).run h =
      (Outcome.ret { mbufs := st.mbufs, nb_tx := st.nb_tx },
        [Call.rte_eth_rx_burst port_id i 32]) := by
  unfold received at h0
  unfold poll_queue
  simp only [run_call_bind, h0]
  simp [u16, run_pure_bind]

/-- A poll that receives buffers and returns has made exactly these calls. -/
theorem ret_poll_queue_cons (env : Env) (port_id i : Nat) (st st1 : Locals) (h : Trace)
    (es : Trace) (h0 : received env port_id i h ≠ [])
    (hr : (poll_queue env port_id i st).run h = (Outcome.ret st1, es)) :
    st1.nb_tx = u16 (env.tx (h ++ [Call.rte_eth_rx_burst port_id i 32]
        ++ packet_calls port_id i (received env port_id i h)
        ++ [Call.rte_eth_tx_burst port_id i (received env port_id i h)])) ∧
    st1.mbufs = received env port_id i h ++ st.mbufs.drop (received env port_id i h).length ∧
    es = [Call.rte_eth_rx_burst port_id i 32]
        ++ packet_calls port_id i (received env port_id i h)
        ++ [Call.rte_eth_tx_burst port_id i (received env port_id i h)]
        ++ ((received env port_id i h).drop st1.nb_tx).map Call.rte_pktmbuf_free := by
  have hlen := received_length_le env port_id i h
  have hpos : 0 < (received env port_id i h).length := List.length_pos.mpr h0
  unfold received at h0 hlen hpos ⊢
  generalize hb : (env.rx (h ++ [Call.rte_eth_rx_burst port_id i 32])).take 32 = bufs
    at h0 hlen hpos ⊢
  unfold poll_queue at hr
  rw [run_bind_eq_ret] at hr
  obtain ⟨t, es1, es2, ht, hr, rfl⟩ := hr
  simp only [run_call, Prod.mk.injEq, Outcome.ret.injEq] at ht
  obtain ⟨rfl, rfl⟩ := ht
  simp only [hb] at hr
  have hu : u16 bufs.length = bufs.length := u16_of_lt (by omega)
  simp only [hu, ne_eq, Nat.pos_iff_ne_zero.mp hpos, not_false_eq_true, if_true] at hr
  simp only [run_bind_eq_ret, run_call, run_pure, Prod.mk.injEq, Outcome.ret.injEq] at hr
  obtain ⟨nb_tx, es3, es4, ⟨u1, es5, es6, hpk,
    ⟨t2, es7, es8, ⟨rfl, rfl⟩, ⟨rfl, rfl⟩, rfl⟩, rfl⟩, ⟨u2, es9, es10, hfree, ⟨rfl, rfl⟩, rfl⟩,
    rfl⟩ := hr
  have hpk2 := ret_packet_loop env port_id i _ bufs.length 0 _ _ _ (by omega) hpk
  have hes5 : es5 = packet_calls port_id i bufs := by
    rw [hpk2]
    unfold packet_calls
    conv_rhs => rw [← range_map_getD_append bufs (st.mbufs.drop bufs.length)]
    simp [List.flatMap_map, Function.comp_def]
  subst hes5
  have htake : (bufs ++ st.mbufs.drop bufs.length).take bufs.length = bufs := by simp
  rw [htake] at hfree ⊢
  simp only [List.append_nil, List.append_assoc, List.singleton_append, List.cons_append,
    List.nil_append] at hfree ⊢
  refine ⟨trivial, trivial, ?_⟩
  set nb := u16 (env.tx (h ++ Call.rte_eth_rx_burst port_id i 32 ::
    (packet_calls port_id i bufs ++ [Call.rte_eth_tx_burst port_id i bufs]))) with hnb
  have hnb16 : nb < 2 ^ 16 := by
    rw [hnb]; unfold u16; exact Nat.mod_lt _ (by decide)
  by_cases hlt : nb < bufs.length
  · simp only [hlt, if_true] at hfree
    rw [run_free_loop _ _ _ _ (by omega)] at hfree
    simp only [Prod.mk.injEq, true_and] at hfree
    rw [← hfree, ← range_map_getD_drop bufs (st.mbufs.drop bufs.length) nb]
    simp [Function.comp_def]
  · simp only [hlt, if_false, run_pure, Prod.mk.injEq, true_and] at hfree
    rw [← hfree, List.drop_eq_nil_of_le (by omega)]
    rfl

theorem run_eq_of_fst {α : Type} {m : M α} {h : Trace} {a : α}
    (hh : (m.run h).1 = Outcome.ret a) : m.run h = (Outcome.ret a, (m.run h).2) :=
  Prod.ext hh rfl

theorem filter_packet_calls (port_id i : Nat) (bufs : List Nat) :
    (packet_calls port_id i bufs).filter isFlagOrRx = [] := by
  unfold packet_calls
  induction bufs with
  | nil => rfl
  | cons b bs ih =>
    simp only [List.flatMap_cons, List.filter_append, ih]
    rfl

theorem filter_free_calls (bufs : List Nat) :
    (bufs.map Call.rte_pktmbuf_free).filter isFlagOrRx = [] := by
  induction bufs with
  | nil => rfl
  | cons b bs ih =>
    simp only [List.map_cons, List.filter_cons, ih]
    rfl

theorem filter_poll_queue (env : Env) (port_id i : Nat) (st st1 : Locals) (h : Trace)
    (es : Trace) (hr : (poll_queue env port_id i st).run h = (Outcome.ret st1, es)) :
    es.filter isFlagOrRx = [Call.rte_eth_rx_burst port_id i 32] := by
  by_cases h0 : received env port_id i h = []
  · rw [run_poll_queue_nil env port_id i st h h0] at hr
    simp only [Prod.mk.injEq] at hr
    rw [← hr.2]; rfl
  · obtain ⟨-, -, hes⟩ := ret_poll_queue_cons env port_id i st st1 h es h0 hr
    rw [hes]
    simp only [List.filter_append, filter_packet_calls, filter_free_calls, List.append_nil]
    rfl

theorem filter_queue_loop (env : Env) (port_id : Nat) (n i : Nat) (st st1 : Locals)
    (h : Trace) (es : Trace) (hn : i + n < 2 ^ 16)
    (hr : (queue_loop env port_id n i st).run h = (Outcome.ret st1, es)) :
    es.filter isFlagOrRx = (List.range n).map (fun k => Call.rte_eth_rx_burst port_id (i + k) 32) := by
  induction n generalizing i st h es with
  | zero =>
    unfold queue_loop at hr
    simp at hr
    simp [hr.2]
  | succ n ih =>
    unfold queue_loop at hr
    rw [run_bind_eq_ret] at hr
    obtain ⟨st2, es1, es2, hp, hl, rfl⟩ := hr
    rw [u16_of_lt (by omega)] at hl
    rw [List.filter_append, filter_poll_queue env port_id i st st2 h es1 hp,
      ih (i + 1) st2 _ es2 (by omega) hl, List.range_succ_eq_map]
    simp [Function.comp_def, Nat.add_assoc, Nat.add_comm 1]

/-- The reads of `force_quit` and the receive bursts of `k` full passes over
the standard queues of `port_id`, followed by the read that ends the loop. -/
theorem filter_while_loop (env : Env) (port_id : Nat) (fuel : Nat) (st : Locals) (h : Trace)
    (v : Int) (es : Trace)
    (hr : (while_loop env port_id fuel st).run h = (Outcome.ret v, es)) :
    v = 0 ∧ ∃ k, k < fuel ∧ es.filter isFlagOrRx =
      (List.replicate k (Call.read_force_quit false ::
        (List.range nr_std_queues).map (fun i => Call.rte_eth_rx_burst port_id i 32))).flatten
      ++ [Call.read_force_quit true] := by
  induction fuel generalizing st h es with
  | zero =>
    unfold while_loop at hr
    simp at hr
  | succ fuel ih =>
    unfold while_loop at hr
    rw [run_bind_eq_ret] at hr
    obtain ⟨fq, es1, es2, hf, hrest, rfl⟩ := hr
    simp only [read_force_quit, M.run, Prod.mk.injEq, Outcome.ret.injEq] at hf
    obtain ⟨hfq, rfl⟩ := hf
    cases fq with
    | true =>
      simp only [if_true] at hrest
      have hp : (pure 0 : M Int).run (h ++ [Call.read_force_quit (env.force_quit h)])
          = (Outcome.ret 0, []) := rfl
      rw [hp] at hrest
      simp only [Prod.mk.injEq, Outcome.ret.injEq] at hrest
      refine ⟨hrest.1.symm, 0, Nat.succ_pos _, ?_⟩
      rw [← hrest.2, hfq]
      rfl
    | false =>
      simp only [Bool.false_eq_true, if_false] at hrest
      rw [run_bind_eq_ret] at hrest
      obtain ⟨st2, es3, es4, hq, hw, rfl⟩ := hrest
      obtain ⟨hv, k, hk, hes⟩ := ih st2 _ es4 hw
      refine ⟨hv, k + 1, Nat.succ_lt_succ hk, ?_⟩
      have hq2 := filter_queue_loop env port_id nr_std_queues 0 st st2 _ es3 (by decide) hq
      rw [hfq, List.replicate_succ, List.flatten_cons]
      simp only [List.filter_append, hq2, hes, List.filter_cons, isFlagOrRx, if_true,
        List.filter_nil, List.singleton_append, List.cons_append, List.append_assoc, Nat.zero_add,
        List.nil_append]

/-- More fuel does not change a run of the `while` loop that returned. -/
theorem while_loop_fuel_mono (env : Env) (port_id : Nat) (fuel : Nat) (st : Locals) (h : Trace)
    (v : Int) (es : Trace) (d : Nat)
    (hr : (while_loop env port_id fuel st).run h = (Outcome.ret v, es)) :
    (while_loop env port_id (fuel + d) st).run h = (Outcome.ret v, es) := by
  induction fuel generalizing st h es with
  | zero =>
    unfold while_loop at hr
    simp at hr
  | succ fuel ih =>
    have e : fuel + 1 + d = (fuel + d) + 1 := by omega
    rw [e]
    unfold while_loop at hr ⊢
    rw [run_bind_eq_ret] at hr ⊢
    obtain ⟨fq, es1, es2, hf, hrest, rfl⟩ := hr
    refine ⟨fq, es1, es2, hf, ?_, rfl⟩
    cases fq with
    | true => exact hrest
    | false =>
      simp only [Bool.false_eq_true, if_false] at hrest ⊢
      rw [run_bind_eq_ret] at hrest ⊢
      obtain ⟨st2, es3, es4, hq, hw, rfl⟩ := hrest
      exact ⟨st2, es3, es4, hq, ih _ _ _ hw, rfl⟩

/-! ## C5 and C6: the forwarding loop -/

/-- C5: in every run of `main_loop` that returns, the reads of `force_quit`
and the calls of `rte_eth_rx_burst` are, in order, `k` repetitions of one
clear read followed by the bursts on queues 0, 1, ..., `nr_std_queues - 1` of
the port (burst size 32), and then the read that finds the flag set; the
return value is 0, and the run is the same with any larger fuel.  If the flag
is set on entry, `main_loop` returns 0 having done nothing but that one
read. -/
theorem main_loop_polling_order (env : Env) (port_id fuel : Nat) (h : Trace) :
    (∀ v, ((main_loop env port_id fuel).run h).1 = Outcome.ret v →
      v = 0 ∧
      (∃ k, k < fuel ∧ ((main_loop env port_id fuel).run h).2.filter isFlagOrRx =
        (List.replicate k (Call.read_force_quit false ::
          (List.range nr_std_queues).map (fun i => Call.rte_eth_rx_burst port_id i 32))).flatten
        ++ [Call.read_force_quit true]) ∧
      (∀ d, (main_loop env port_id (fuel + d)).run h = (main_loop env port_id fuel).run h)) ∧
    (env.force_quit h = true →
      (main_loop env port_id (fuel + 1)).run h = (Outcome.ret 0, [Call.read_force_quit true])) := by
  constructor
  · intro v hv
    obtain ⟨h1, h2⟩ := filter_while_loop env port_id fuel _ h v _ (run_eq_of_fst hv)
    refine ⟨h1, h2, fun d => ?_⟩
    have h3 := run_eq_of_fst hv
    unfold main_loop at h3 ⊢
    rw [while_loop_fuel_mono env port_id fuel _ h v _ d h3]
    exact h3.symm
  · intro hq
    unfold main_loop while_loop
    rw [run_bind]
    simp only [read_force_quit, M.run, hq, if_true]
    rfl

/-- Witness for C5: two full passes, then the flag is found set. -/
theorem main_loop_polling_order_witness :
    (0 : Int) = 0 ∧
      (∃ k, k < 5 ∧ ((main_loop twoPassEnv 0 5).run []).2.filter isFlagOrRx =
        (List.replicate k (Call.read_force_quit false ::
          (List.range nr_std_queues).map (fun i => Call.rte_eth_rx_burst 0 i 32))).flatten
        ++ [Call.read_force_quit true]) ∧
      (∀ d, (main_loop twoPassEnv 0 (5 + d)).run [] = (main_loop twoPassEnv 0 5).run []) :=
  (main_loop_polling_order twoPassEnv 0 5 []).1 0 (by decide)

/-- C6: one poll of queue `i`.  At most 32 buffers are received.  If none is
received the poll makes no other call (no transmit, no free) and leaves `nb_tx`
as it was, whatever its value.  If some are received and the poll returns (its
transmit was reached), it has called `rte_eth_tx_burst` once, on queue `i`, with
all received buffers in receive order, and has then freed exactly the buffers
from position `nb_tx` on, each once, where `nb_tx` is what the transmit
returned; the accepted and the freed buffers together are the received ones. -/
theorem poll_queue_buffer_conservation (env : Env) (port_id i : Nat) (st : Locals) (h : Trace) :
    (received env port_id i h).length ≤ 32 ∧
    (received env port_id i h = [] →
      (poll_queue env port_id i st).run h =
        (Outcome.ret st, [Call.rte_eth_rx_burst port_id i 32])) ∧
    (received env port_id i h ≠ [] →
      ∀ st1, ((poll_queue env port_id i st).run h).1 = Outcome.ret st1 →
        st1.nb_tx = u16 (env.tx (h ++ [Call.rte_eth_rx_burst port_id i 32]
          ++ packet_calls port_id i (received env port_id i h)
          ++ [Call.rte_eth_tx_burst port_id i (received env port_id i h)])) ∧
        ((poll_queue env port_id i st).run h).2 =
          [Call.rte_eth_rx_burst port_id i 32]
          ++ packet_calls port_id i (received env port_id i h)
          ++ [Call.rte_eth_tx_burst port_id i (received env port_id i h)]
          ++ ((received env port_id i h).drop st1.nb_tx).map Call.rte_pktmbuf_free ∧
        (received env port_id i h).take st1.nb_tx ++ (received env port_id i h).drop st1.nb_tx
          = received env port_id i h) := by
  refine ⟨received_length_le env port_id i h, ?_, ?_⟩
  · intro h0
    exact run_poll_queue_nil env port_id i st h h0
  · intro h0 st1 hst
    obtain ⟨h1, -, h3⟩ := ret_poll_queue_cons env port_id i st st1 h _ h0 (run_eq_of_fst hst)
    exact ⟨h1, h3, List.take_append_drop _ _⟩

/-- Witness for C6: three buffers received on queue 3, one accepted by the
transmit, the other two freed. -/
theorem poll_queue_buffer_conservation_witness :
    ((poll_queue busyEnv 0 3 { mbufs := [], nb_tx := 7 }).run []).2 =
      [Call.rte_eth_rx_burst 0 3 32]
      ++ packet_calls 0 3 [10, 11, 12]
      ++ [Call.rte_eth_tx_burst 0 3 [10, 11, 12]]
      ++ [Call.rte_pktmbuf_free 11, Call.rte_pktmbuf_free 12] :=
  ((poll_queue_buffer_conservation busyEnv 0 3 { mbufs := [], nb_tx := 7 } []).2.2
    (by decide) { mbufs := [10, 11, 12], nb_tx := 1 } (by decide)).2.1

/-! ## Loops over the ports -/

theorem emitsAt_foreach_dev {body : Nat → M Unit} {P : Call → Prop}
    (hb : ∀ p h, EmitsAt (body p) h P) (ports : List Nat) (h : Trace) :
    EmitsAt (foreach_dev body ports) h P := by
  induction ports generalizing h with
  | nil => exact emitsAt_pure _ _ _
  | cons p ps ih =>
    unfold foreach_dev
    exact emitsAt_bind (hb p h) (fun _ _ _ => ih _)

/-- If every returning run of the body for port `p` makes the call `Q p`, a
returning loop has made `Q p` for every port. -/
theorem mem_of_ret_foreach_dev {body : Nat → M Unit} {Q : Nat → Call}
    (hb : ∀ p h u es, (body p).run h = (Outcome.ret u, es) → Q p ∈ es)
    (ports : List Nat) (h : Trace) (u : Unit) (es : Trace)
    (hr : (foreach_dev body ports).run h = (Outcome.ret u, es)) :
    ∀ p ∈ ports, Q p ∈ es := by
  induction ports generalizing h es with
  | nil => intro p hp; simp at hp
  | cons q qs ih =>
    unfold foreach_dev at hr
    rw [run_bind_eq_ret] at hr
    obtain ⟨u1, es1, es2, h1, h2, rfl⟩ := hr
    intro p hp
    rcases List.mem_cons.mp hp with rfl | hp
    · exact List.mem_append_left _ (hb _ h u1 es1 h1)
    · exact List.mem_append_right _ (ih _ es2 h2 p hp)

/-- A loop whose body always returns after the fixed calls `ev p`. -/
theorem run_foreach_dev_const (body : Nat → M Unit) (ev : Nat → Trace)
    (hb : ∀ p h, (body p).run h = (Outcome.ret (), ev p)) (ports : List Nat) (h : Trace) :
    (foreach_dev body ports).run h = (Outcome.ret (), ports.flatMap ev) := by
  induction ports generalizing h with
  | nil => rfl
  | cons p ps ih =>
    unfold foreach_dev
    rw [run_bind_of_ret (hb p h), ih]
    simp

/-! ## C7: teardown -/

theorem run_main_teardown (env : Env) (h : Trace) :
    (main_teardown env).run h = (Outcome.ret 0, teardown_calls env.ports) := by
  unfold main_teardown
  rw [run_callVoid_bind]
  have hflush := run_foreach_dev_const
    (fun port_id => callVoid (Call.rte_flow_flush port_id))
    (fun p => [Call.rte_flow_flush p]) (fun _ _ => rfl) env.ports
  have hstop := run_foreach_dev_const
    (fun port_id => do
      callVoid (Call.rte_eth_dev_stop port_id)
      callVoid (Call.rte_eth_dev_close port_id))
    (fun p => [Call.rte_eth_dev_stop p, Call.rte_eth_dev_close p]) (fun _ _ => rfl) env.ports
  rw [run_bind_of_ret (hflush _), run_callVoid_bind]
  have hunbind : ∀ h1, (if 2 = u16 env.ports.length then
        callVoid Call.hairpin_two_ports_unbind else pure ()).run h1 =
      (Outcome.ret (), if 2 = u16 env.ports.length then [Call.hairpin_two_ports_unbind] else []) := by
    intro h1
    by_cases h2 : 2 = u16 env.ports.length <;> simp [h2]
  rw [run_bind_of_ret (hunbind _), run_bind_of_ret (hstop _), run_callVoid_bind]
  simp only [run_pure, teardown_calls]
  have hmap : env.ports.flatMap (fun p => [Call.rte_flow_flush p])
      = env.ports.map Call.rte_flow_flush := by
    induction env.ports with
    | nil => rfl
    | cons a l ih => simp [List.flatMap_cons, ih]
  rw [hmap]
  simp

/-- C7: whatever `rte_flow_flush`, `hairpin_two_ports_unbind` and
`rte_eth_dev_stop` return, the teardown of `main` makes exactly these calls:
`rte_flow_flush` once on every discovered port, then (after asking
`rte_eth_dev_count_avail`) `hairpin_two_ports_unbind` if and only if the count
is 2, then for every discovered port `rte_eth_dev_stop` immediately followed
by `rte_eth_dev_close`, then `rte_eal_cleanup`; and it returns 0.  Hence, once
startup and `main_loop` have returned, `main` returns 0 and its trace ends
with exactly that sequence. -/
theorem teardown_sequence (env : Env) (fuel : Nat) :
    (∀ h, (main_teardown env).run h =
      (Outcome.ret 0,
        [Call.rte_eal_mp_wait_lcore]
        ++ env.ports.map Call.rte_flow_flush
        ++ [Call.rte_eth_dev_count_avail]
        ++ (if 2 = u16 env.ports.length then [Call.hairpin_two_ports_unbind] else [])
        ++ env.ports.flatMap (fun p => [Call.rte_eth_dev_stop p, Call.rte_eth_dev_close p])
        ++ [Call.rte_eal_cleanup])) ∧
    (∀ port_id v,
      ((main_startup env).run []).1 = Outcome.ret port_id →
      ((main_loop env port_id fuel).run ((main_startup env).run []).2).1 = Outcome.ret v →
      (main env fuel).run [] =
        (Outcome.ret 0,
          ((main_startup env).run []).2
          ++ ((main_loop env port_id fuel).run ((main_startup env).run []).2).2
          ++ teardown_calls env.ports)) := by
  refine ⟨fun h => run_main_teardown env h, ?_⟩
  intro port_id v hs hl
  unfold main
  rw [run_bind_of_ret (run_eq_of_fst hs)]
  have hl2 : (main_loop env port_id fuel).run ([] ++ ((main_startup env).run []).2) =
      (Outcome.ret v, ((main_loop env port_id fuel).run ((main_startup env).run []).2).2) := by
    rw [List.nil_append]; exact run_eq_of_fst hl
  rw [run_bind_of_ret hl2, run_main_teardown]
  simp

/-- Witness for C7: two ports, every call succeeds, the flag is already set
when `main_loop` starts. -/
theorem teardown_sequence_witness :
    (main quietEnv 1).run [] =
      (Outcome.ret 0,
        ((main_startup quietEnv).run []).2
        ++ ((main_loop quietEnv 0 1).run ((main_startup quietEnv).run []).2).2
        ++ teardown_calls [0, 1]) :=
  (teardown_sequence quietEnv 1).2 0 0 (by decide) (by decide)

/-! ## The flow-rule stage -/

theorem ret_install_flows (env : Env) (nr_ports port_id : Nat) (h : Trace) (u : Unit)
    (es : Trace) (hr : (install_flows env nr_ports port_id).run h = (Outcome.ret u, es)) :
    es = install_flows_calls nr_ports port_id := by
  unfold install_flows at hr
  by_cases hn : nr_ports = 2
  · simp only [hn, if_true] at hr
    repeat
      rw [run_bind_eq_ret] at hr
      obtain ⟨_, _, _, h1, hr, rfl⟩ := hr
      simp only [run_bind_eq_ret, run_callHandle, run_callStatus, run_exit_if_eq_ret,
        Prod.mk.injEq, Outcome.ret.injEq] at h1
      first
        | obtain ⟨-, rfl⟩ := h1
        | obtain ⟨_, _, _, ⟨-, rfl⟩, ⟨-, rfl⟩, rfl⟩ := h1
    simp only [run_exit_if_eq_ret] at hr
    obtain ⟨-, rfl⟩ := hr
    simp [install_flows_calls, hn]
  · simp only [hn, if_false] at hr
    repeat
      rw [run_bind_eq_ret] at hr
      obtain ⟨_, _, _, h1, hr, rfl⟩ := hr
      simp only [run_bind_eq_ret, run_callHandle, run_callStatus, run_exit_if_eq_ret, run_pure,
        Prod.mk.injEq, Outcome.ret.injEq] at h1
      obtain ⟨-, rfl⟩ := h1
    simp only [run_exit_if_eq_ret] at hr
    obtain ⟨-, rfl⟩ := hr
    simp [install_flows_calls, hn]

theorem filter_stage_install_flows_calls (nr_ports port_id : Nat) :
    (install_flows_calls nr_ports port_id).filter isStageCall =
      [Call.create_gtp_u_decap_rss_flow port_id nr_std_queues queues,
        Call.create_gtp_u_inner_ip_rss_flow port_id nr_std_queues queues,
        Call.create_gtp_u_encap_flow port_id,
        Call.create_gtp_u_psc_encap_flow port_id,
        Call.create_flow_with_tag port_id,
        Call.create_flow_with_sampling port_id,
        Call.create_nic_flow_with_mirror port_id 2 1,
        Call.create_symmetric_rss_flow port_id nr_std_queues queues,
        Call.create_flow_with_age port_id,
        Call.create_gre_decap_rss_flow port_id nr_std_queues queues,
        Call.create_gre_encap_flow port_id,
        Call.create_flow_with_counter port_id,
        Call.create_modify_gtp_teid_flows port_id] := by
  unfold install_flows_calls
  by_cases hn : nr_ports = 2
  · simp only [hn, if_true]; rfl
  · simp only [hn, if_false]; rfl

/-! ## Runs in which every call succeeds -/

theorem succeeds_bind {α β : Type} {m : M α} {f : α → M β} {Q : α → Prop} {R : β → Prop}
    (hm : Succeeds m Q) (hf : ∀ a, Q a → Succeeds (f a) R) : Succeeds (m >>= f) R := by
  intro h
  obtain ⟨a, es, hr, hq⟩ := hm h
  obtain ⟨b, es2, hr2, hq2⟩ := hf a hq (h ++ es)
  exact ⟨b, es ++ es2, (run_bind_eq_ret m f h b _).mpr ⟨a, es, es2, hr, hr2, rfl⟩, hq2⟩

theorem succeeds_pure {α : Type} (a : α) {Q : α → Prop} (hq : Q a) :
    Succeeds (pure a : M α) Q :=
  fun _ => ⟨a, [], rfl, hq⟩

theorem succeeds_call (c : Call) : Succeeds (call c) (fun _ => True) :=
  fun h => ⟨h ++ [c], [c], rfl, trivial⟩

theorem succeeds_callVoid (c : Call) : Succeeds (callVoid c) (fun _ => True) :=
  fun _ => ⟨(), [c], rfl, trivial⟩

theorem succeeds_callStatus {env : Env} (hs : ∀ h, env.status h = 0) (c : Call) :
    Succeeds (callStatus env c) (fun a => a = 0) :=
  fun h => ⟨env.status (h ++ [c]), [c], rfl, hs _⟩

theorem succeeds_callHandle {env : Env} (hh : ∀ h, env.handle h ≠ 0) (c : Call) :
    Succeeds (callHandle env c) (fun a => a ≠ 0) :=
  fun h => ⟨env.handle (h ++ [c]), [c], rfl, hh _⟩

theorem succeeds_exit_if {c : Prop} [Decidable c] (k : Int) (hc : ¬ c) :
    Succeeds (exit_if c k) (fun _ => True) := by
  intro h
  exact ⟨(), [], (run_exit_if_eq_ret c k h () []).mpr ⟨hc, rfl⟩, trivial⟩

theorem succeeds_foreach_dev {body : Nat → M Unit}
    (hb : ∀ p, Succeeds (body p) (fun _ => True)) (ports : List Nat) :
    Succeeds (foreach_dev body ports) (fun _ => True) := by
  induction ports with
  | nil => exact succeeds_pure _ trivial
  | cons p ps ih =>
    unfold foreach_dev
    exact succeeds_bind (hb p) (fun _ _ => ih)

theorem succeeds_rx_queue_setup_loop {env : Env} (hs : ∀ h, env.status h = 0)
    (port_id off n i : Nat) :
    Succeeds (rx_queue_setup_loop env port_id off n i) (fun _ => True) := by
  induction n generalizing i with
  | zero => exact succeeds_pure _ trivial
  | succ n ih =>
    unfold rx_queue_setup_loop
    refine succeeds_bind (succeeds_callStatus hs _) (fun a ha => ?_)
    exact succeeds_bind (succeeds_exit_if _ (by omega)) (fun _ _ => ih _)

theorem succeeds_tx_queue_setup_loop {env : Env} (hs : ∀ h, env.status h = 0)
    (port_id off n i : Nat) :
    Succeeds (tx_queue_setup_loop env port_id off n i) (fun _ => True) := by
  induction n generalizing i with
  | zero => exact succeeds_pure _ trivial
  | succ n ih =>
    unfold tx_queue_setup_loop
    refine succeeds_bind (succeeds_callStatus hs _) (fun a ha => ?_)
    exact succeeds_bind (succeeds_exit_if _ (by omega)) (fun _ _ => ih _)

theorem succeeds_init_port {env : Env} (hs : ∀ h, env.status h = 0) (port_id : Nat) :
    Succeeds (init_port env port_id) (fun _ => True) := by
  unfold init_port
  refine succeeds_bind (succeeds_call _) (fun t _ => ?_)
  refine succeeds_bind (succeeds_exit_if _ (by simp [hs])) (fun _ _ => ?_)
  refine succeeds_bind (succeeds_callStatus hs _) (fun a ha => ?_)
  refine succeeds_bind (succeeds_exit_if _ (by omega)) (fun _ _ => ?_)
  refine succeeds_bind (succeeds_rx_queue_setup_loop hs _ _ _ _) (fun _ _ => ?_)
  refine succeeds_bind (succeeds_tx_queue_setup_loop hs _ _ _ _) (fun _ _ => ?_)
  refine succeeds_bind (succeeds_callStatus hs _) (fun b hb => ?_)
  exact succeeds_exit_if _ (by simp [hb])

theorem succeeds_assert_link_status {env : Env} (hs : ∀ h, env.status h = 0)
    (hl : ∀ h, env.link h = some true) (g_port_id : Nat) :
    Succeeds (assert_link_status env g_port_id) (fun _ => True) := by
  unfold assert_link_status
  have hloop : Succeeds (link_poll_loop env g_port_id (u8 MAX_REPEAT_TIMES) false)
      (fun r => r = (0, true)) := by
    have h90 : u8 MAX_REPEAT_TIMES = 89 + 1 := by decide
    rw [h90]
    unfold link_poll_loop
    refine succeeds_bind (succeeds_call _) (fun t _ => ?_)
    simp only [hs, hl, Option.getD_some, and_self, if_true]
    exact succeeds_pure _ rfl
  refine succeeds_bind hloop (fun r hr => ?_)
  subst hr
  refine succeeds_bind (succeeds_exit_if _ (by decide)) (fun _ _ => ?_)
  exact succeeds_exit_if _ (by decide)

theorem succeeds_start_ports {env : Env} (hs : ∀ h, env.status h = 0)
    (hl : ∀ h, env.link h = some true) (g_port_id : Nat) :
    Succeeds (start_ports env g_port_id) (fun _ => True) := by
  unfold start_ports
  refine succeeds_foreach_dev (fun p => ?_) _
  refine succeeds_bind (succeeds_callStatus hs _) (fun a ha => ?_)
  refine succeeds_bind (succeeds_exit_if _ (by omega)) (fun _ _ => ?_)
  exact succeeds_assert_link_status hs hl _

theorem succeeds_main_setup {env : Env} (hall : AllSucceed env)
    (hp : u16 env.ports.length ≠ 0) :
    Succeeds (main_setup env) (fun n => n = u16 env.ports.length) := by
  obtain ⟨hs, hh, hl⟩ := hall
  unfold main_setup
  refine succeeds_bind (succeeds_callStatus hs _) (fun a ha => ?_)
  refine succeeds_bind (succeeds_exit_if _ (by omega)) (fun _ _ => ?_)
  refine succeeds_bind (succeeds_callVoid _) (fun _ _ => ?_)
  refine succeeds_bind (succeeds_callVoid _) (fun _ _ => ?_)
  refine succeeds_bind (succeeds_callVoid _) (fun _ _ => ?_)
  refine succeeds_bind (succeeds_exit_if _ hp) (fun _ _ => ?_)
  refine succeeds_bind (succeeds_callHandle hh _) (fun b hb => ?_)
  refine succeeds_bind (succeeds_exit_if _ hb) (fun _ _ => ?_)
  refine succeeds_bind (succeeds_foreach_dev (fun p => succeeds_init_port hs p) _) (fun _ _ => ?_)
  refine succeeds_bind (Q := fun _ => True) ?_ (fun _ _ => ?_)
  · split
    · exact fun h => ⟨_, _, rfl, trivial⟩
    · exact fun h => ⟨_, _, rfl, trivial⟩
  refine succeeds_bind (succeeds_start_ports hs hl _) (fun _ _ => ?_)
  refine succeeds_bind (Q := fun _ => True) ?_ (fun _ _ => succeeds_pure _ rfl)
  split
  · refine succeeds_bind (succeeds_callStatus hs _) (fun c hc => ?_)
    exact succeeds_exit_if _ (by simp [hc])
  · exact succeeds_pure _ trivial

theorem succeeds_install_flows {env : Env} (hall : AllSucceed env) (nr_ports port_id : Nat) :
    Succeeds (install_flows env nr_ports port_id) (fun _ => True) := by
  obtain ⟨hs, hh, hl⟩ := hall
  unfold install_flows
  refine succeeds_bind (succeeds_callHandle hh _) (fun _ _ => ?_)
  refine succeeds_bind (succeeds_callHandle hh _) (fun _ _ => ?_)
  refine succeeds_bind (succeeds_callHandle hh _) (fun _ _ => ?_)
  refine succeeds_bind (succeeds_callHandle hh _) (fun b hb => ?_)
  refine succeeds_bind (succeeds_exit_if _ hb) (fun _ _ => ?_)
  refine succeeds_bind (Q := fun b => b ≠ 0) ?_ (fun b hb => ?_)
  · split
    · exact succeeds_callHandle hh _
    · exact succeeds_callHandle hh _
  refine succeeds_bind (succeeds_exit_if _ hb) (fun _ _ => ?_)
  refine succeeds_bind (succeeds_callHandle hh _) (fun b hb => ?_)
  refine succeeds_bind (succeeds_exit_if _ hb) (fun _ _ => ?_)
  refine succeeds_bind (succeeds_callHandle hh _) (fun b hb => ?_)
  refine succeeds_bind (succeeds_exit_if _ hb) (fun _ _ => ?_)
  refine succeeds_bind (succeeds_callHandle hh _) (fun b hb => ?_)
  refine succeeds_bind (succeeds_exit_if _ hb) (fun _ _ => ?_)
  refine succeeds_bind (succeeds_callStatus hs _) (fun c hc => ?_)
  refine succeeds_bind (succeeds_exit_if _ (by simp [hc])) (fun _ _ => ?_)
  refine succeeds_bind (succeeds_callStatus hs _) (fun c hc => ?_)
  refine succeeds_bind (succeeds_exit_if _ (by simp [hc])) (fun _ _ => ?_)
  refine succeeds_bind (succeeds_callHandle hh _) (fun b hb => ?_)
  refine succeeds_bind (succeeds_exit_if _ hb) (fun _ _ => ?_)
  refine succeeds_bind (succeeds_callHandle hh _) (fun b hb => ?_)
  refine succeeds_bind (succeeds_exit_if _ hb) (fun _ _ => ?_)
  refine succeeds_bind (Q := fun _ => True) ?_ (fun _ _ => ?_)
  · split
    · refine succeeds_bind (succeeds_callStatus hs _) (fun c hc => ?_)
      exact succeeds_exit_if _ (by simp [hc])
    · exact succeeds_pure _ trivial
  refine succeeds_bind (succeeds_callStatus hs _) (fun c hc => ?_)
  refine succeeds_bind (succeeds_exit_if _ (by simp [hc])) (fun _ _ => ?_)
  refine succeeds_bind (succeeds_callStatus hs _) (fun c hc => ?_)
  refine succeeds_bind (succeeds_exit_if _ (by simp [hc])) (fun _ _ => ?_)
  refine succeeds_bind (succeeds_callStatus hs _) (fun c hc => ?_)
  exact succeeds_exit_if _ (by simp [hc])

theorem succeeds_main_startup {env : Env} (hall : AllSucceed env)
    (hp : u16 env.ports.length ≠ 0) :
    Succeeds (main_startup env) (fun p => p = u16 env.first_port) := by
  unfold main_startup
  refine succeeds_bind (succeeds_main_setup hall hp) (fun n _ => ?_)
  refine succeeds_bind (succeeds_callVoid _) (fun _ _ => ?_)
  exact succeeds_bind (succeeds_install_flows hall _ _) (fun _ _ => succeeds_pure _ rfl)

/-! ## Which calls each part of `main` can make -/

theorem run_bind_assoc {α β γ : Type} (m : M α) (f : α → M β) (g : β → M γ) (h : Trace) :
    ((m >>= f) >>= g).run h = (m >>= fun a => f a >>= g).run h := by
  rw [run_bind, run_bind, run_bind]
  rcases hm : m.run h with ⟨o, es⟩
  cases o with
  | ret a =>
    simp only []
    rw [run_bind]
    rcases hf : (f a).run (h ++ es) with ⟨o2, es2⟩
    cases o2 <;> simp [List.append_assoc]
  | rte_exit c => rfl
  | out_of_fuel => rfl

theorem snd_bind_of_ret {α β : Type} {m : M α} {f : α → M β} {h : Trace} {a : α} {es : Trace}
    (hm : m.run h = (Outcome.ret a, es)) :
    ((m >>= f).run h).2 = es ++ ((f a).run (h ++ es)).2 := by
  rw [run_bind_of_ret hm]

theorem isInitCall_of_mem_init_port_calls (env : Env) (port_id : Nat) (h : Trace) (c : Call)
    (hc : c ∈ init_port_calls env port_id h) : isInitCall c = true := by
  simp only [init_port_calls, List.mem_append, List.mem_map, List.mem_range, List.mem_cons,
    List.mem_singleton, List.not_mem_nil, or_false] at hc
  rcases hc with (((rfl | rfl) | ⟨q, -, rfl⟩) | ⟨q, -, rfl⟩) | rfl <;> rfl

theorem emits_init_ports (env : Env) (h : Trace) :
    EmitsAt (init_ports env) h (fun c => isInitCall c = true) := by
  unfold init_ports
  refine emitsAt_foreach_dev (fun p h1 => ?_) _ _
  exact emitsAt_mono (emits_init_port env p h1)
    (fun c hc => isInitCall_of_mem_init_port_calls env p h1 c hc)

theorem emits_link_poll_loop (env : Env) (g_port_id n : Nat) (link : Bool) (h : Trace) :
    EmitsAt (link_poll_loop env g_port_id n link) h (fun c => isStartCall c = true) := by
  induction n generalizing link h with
  | zero => exact emitsAt_pure _ _ _
  | succ n ih =>
    unfold link_poll_loop
    refine emitsAt_bind (emitsAt_call rfl) (fun t _ _ => ?_)
    dsimp only
    repeat' first
      | exact emitsAt_pure _ _ _
      | exact ih _ _
      | exact emitsAt_callVoid rfl
      | refine emitsAt_bind ?_ (fun _ _ _ => ?_)
      | split

theorem emits_start_ports (env : Env) (g_port_id : Nat) (h : Trace) :
    EmitsAt (start_ports env g_port_id) h (fun c => isStartCall c = true) := by
  unfold start_ports
  refine emitsAt_foreach_dev (fun p h1 => ?_) _ _
  refine emitsAt_bind (emitsAt_callStatus rfl) (fun _ _ _ => ?_)
  refine emitsAt_bind (emitsAt_exit_if _ _ _ _) (fun _ _ _ => ?_)
  unfold assert_link_status
  refine emitsAt_bind (emits_link_poll_loop _ _ _ _ _) (fun _ _ _ => ?_)
  exact emitsAt_bind (emitsAt_exit_if _ _ _ _) (fun _ _ _ => emitsAt_exit_if _ _ _ _)

theorem emits_install_flows (env : Env) (nr_ports port_id : Nat) (h : Trace) :
    EmitsAt (install_flows env nr_ports port_id) h (fun c => isFlowCall c = true) := by
  unfold install_flows
  repeat' first
    | exact emitsAt_pure _ _ _
    | exact emitsAt_exit_if _ _ _ _
    | exact emitsAt_callStatus rfl
    | exact emitsAt_callHandle rfl
    | refine emitsAt_bind ?_ (fun _ _ _ => ?_)
    | split

theorem emits_packet_loop (env : Env) (port_id i : Nat) (mbufs : List Nat) (n j : Nat)
    (h : Trace) :
    EmitsAt (packet_loop env port_id i mbufs n j) h (fun c => isLoopCall c = true) := by
  induction n generalizing j h with
  | zero => exact emitsAt_pure _ _ _
  | succ n ih =>
    unfold packet_loop
    refine emitsAt_bind (emitsAt_callStatus rfl) (fun _ _ _ => ?_)
    refine emitsAt_bind (emitsAt_exit_if _ _ _ _) (fun _ _ _ => ?_)
    exact emitsAt_bind (emitsAt_callVoid rfl) (fun _ _ _ => ih _ _)

theorem emits_free_loop (mbufs : List Nat) (n buf : Nat) (h : Trace) :
    EmitsAt (free_loop mbufs n buf) h (fun c => isLoopCall c = true) := by
  induction n generalizing buf h with
  | zero => exact emitsAt_pure _ _ _
  | succ n ih =>
    unfold free_loop
    exact emitsAt_bind (emitsAt_callVoid rfl) (fun _ _ _ => ih _ _)

theorem emits_poll_queue (env : Env) (port_id i : Nat) (st : Locals) (h : Trace) :
    EmitsAt (poll_queue env port_id i st) h (fun c => isLoopCall c = true) := by
  unfold poll_queue
  refine emitsAt_bind (emitsAt_call rfl) (fun _ _ _ => ?_)
  refine emitsAt_bind ?_ (fun _ _ _ => ?_)
  · split
    · refine emitsAt_bind (emits_packet_loop _ _ _ _ _ _ _) (fun _ _ _ => ?_)
      exact emitsAt_bind (emitsAt_call rfl) (fun _ _ _ => emitsAt_pure _ _ _)
    · exact emitsAt_pure _ _ _
  refine emitsAt_bind ?_ (fun _ _ _ => emitsAt_pure _ _ _)
  split
  · exact emits_free_loop _ _ _ _
  · exact emitsAt_pure _ _ _

theorem emits_queue_loop (env : Env) (port_id n i : Nat) (st : Locals) (h : Trace) :
    EmitsAt (queue_loop env port_id n i st) h (fun c => isLoopCall c = true) := by
  induction n generalizing i st h with
  | zero => exact emitsAt_pure _ _ _
  | succ n ih =>
    unfold queue_loop
    exact emitsAt_bind (emits_poll_queue _ _ _ _ _) (fun _ _ _ => ih _ _ _)

theorem emits_main_loop (env : Env) (port_id fuel : Nat) (h : Trace) :
    EmitsAt (main_loop env port_id fuel) h (fun c => isLoopCall c = true) := by
  unfold main_loop
  generalize ({ mbufs := env.stack_mbufs, nb_tx := u16 env.stack_nb_tx } : Locals) = st
  induction fuel generalizing st h with
  | zero => intro c hc; simp [while_loop] at hc
  | succ fuel ih =>
    unfold while_loop
    refine emitsAt_bind ?_ (fun fq _ _ => ?_)
    · intro c hc
      simp only [read_force_quit, M.run, List.mem_singleton] at hc
      subst hc; rfl
    split
    · exact emitsAt_pure _ _ _
    · exact emitsAt_bind (emits_queue_loop _ _ _ _ _ _) (fun _ _ _ => ih _ _)

theorem emits_main_teardown (env : Env) (h : Trace) :
    EmitsAt (main_teardown env) h (fun c => isTeardownCall c = true) := by
  intro c hc
  rw [run_main_teardown] at hc
  simp only [teardown_calls, List.mem_append, List.mem_map, List.mem_flatMap, List.mem_cons,
    List.mem_singleton, List.not_mem_nil, or_false] at hc
  rcases hc with ((((rfl | ⟨p, -, rfl⟩) | rfl) | hu) | ⟨p, -, rfl | rfl⟩) | rfl
  all_goals first
    | rfl
    | (split at hu
       · simp only [List.mem_singleton] at hu; subst hu; rfl
       · simp at hu)

/-- What `main` does once `main_setup` has returned `nr_ports`. -/
theorem emits_after_setup (env : Env) (fuel nr_ports : Nat) (h : Trace) :
    EmitsAt ((do
        callVoid (Call.rte_eth_find_next 0)
        install_flows env nr_ports (u16 env.first_port)
        pure (u16 env.first_port)) >>= fun port_id => do
          let _ ← main_loop env port_id fuel
          main_teardown env) h (fun c => isAfterSetup c = true) := by
  refine emitsAt_bind ?_ (fun _ _ _ => ?_)
  · refine emitsAt_bind (emitsAt_callVoid rfl) (fun _ _ _ => ?_)
    refine emitsAt_bind (emitsAt_mono (emits_install_flows _ _ _ _) ?_)
      (fun _ _ _ => emitsAt_pure _ _ _)
    intro c hc
    simp [isAfterSetup, hc]
  · refine emitsAt_bind (emitsAt_mono (emits_main_loop _ _ _ _) ?_) (fun _ _ _ => ?_)
    · intro c hc
      simp [isAfterSetup, hc]
    · refine emitsAt_mono (emits_main_teardown _ _) ?_
      intro c hc
      simp [isAfterSetup, hc]

/-! ## The classes of calls are disjoint -/

theorem not_stage_of_init (c : Call) (h : isInitCall c = true) :
    isStageCall c = false ∧ isRuleBuilder c = false ∧ isStartOrHairpin c = false := by
  cases c <;> first
    | exact ⟨rfl, rfl, rfl⟩
    | exact absurd h Bool.false_ne_true

theorem not_stage_of_start (c : Call) (h : isStartCall c = true) :
    isStageCall c = false ∧ isRuleBuilder c = false ∧ isInitCall c = false := by
  cases c <;> first
    | exact ⟨rfl, rfl, rfl⟩
    | exact absurd h Bool.false_ne_true

theorem not_setup_of_after (c : Call) (h : isAfterSetup c = true) :
    isStartOrHairpin c = false ∧ isInitCall c = false := by
  cases c <;> first
    | exact ⟨rfl, rfl⟩
    | simp [isAfterSetup, isFlowCall, isRuleBuilder, isLoopCall, isTeardownCall] at h

theorem not_stage_of_boot (c : Call) (h : c ∈ boot_calls) :
    isStageCall c = false ∧ isRuleBuilder c = false ∧ isStartOrHairpin c = false := by
  simp only [boot_calls, List.mem_cons, List.mem_singleton, List.not_mem_nil, or_false] at h
  rcases h with rfl | rfl | rfl | rfl | rfl <;> exact ⟨rfl, rfl, rfl⟩

/-! ## The shape of a `main_setup` that returns -/

theorem ret_main_setup (env : Env) (h : Trace) (n : Nat) (es : Trace)
    (hr : (main_setup env).run h = (Outcome.ret n, es)) :
    n = u16 env.ports.length ∧ ∃ A B,
      es = boot_calls ++ A ++ [hairpin_setup_call n] ++ B
        ++ (if n = 2 then [Call.hairpin_two_ports_bind] else []) ∧
      (init_ports env).run (h ++ boot_calls) = (Outcome.ret (), A) ∧
      (start_ports env 0).run (h ++ boot_calls ++ A ++ [hairpin_setup_call n])
        = (Outcome.ret (), B) := by
  unfold main_setup at hr
  iterate 8
    rw [run_bind_eq_ret] at hr
    obtain ⟨_, _, _, h1, hr, rfl⟩ := hr
    simp only [run_callStatus, run_callHandle, run_callVoid, run_exit_if_eq_ret, Prod.mk.injEq,
      Outcome.ret.injEq] at h1
    obtain ⟨-, rfl⟩ := h1
  rw [run_bind_eq_ret] at hr
  obtain ⟨_, A, _, hinit, hr, rfl⟩ := hr
  rw [run_bind_eq_ret] at hr
  obtain ⟨_, es19, _, hsetup, hr, rfl⟩ := hr
  rw [run_bind_eq_ret] at hr
  obtain ⟨_, B, _, hstart, hr, rfl⟩ := hr
  rw [run_bind_eq_ret] at hr
  obtain ⟨_, es23, _, hbind, hr, rfl⟩ := hr
  simp only [run_pure, Prod.mk.injEq, Outcome.ret.injEq] at hr
  obtain ⟨hn, rfl⟩ := hr
  have hsetup2 : es19 = [hairpin_setup_call n] := by
    rw [← hn]
    unfold hairpin_setup_call
    by_cases h2 : u16 env.ports.length = 2
    · simp only [h2, if_true, run_callStatus, Prod.mk.injEq] at hsetup ⊢
      exact hsetup.2.symm
    · simp only [h2, if_false, run_callStatus, Prod.mk.injEq] at hsetup ⊢
      exact hsetup.2.symm
  have hbind2 : es23 = if n = 2 then [Call.hairpin_two_ports_bind] else [] := by
    rw [← hn]
    by_cases h2 : u16 env.ports.length = 2
    · simp only [h2, if_true, run_bind_eq_ret, run_callStatus, run_exit_if_eq_ret, Prod.mk.injEq,
        Outcome.ret.injEq] at hbind ⊢
      obtain ⟨_, _, _, ⟨-, rfl⟩, ⟨-, rfl⟩, rfl⟩ := hbind
      rfl
    · simp only [h2, if_false, run_pure, Prod.mk.injEq] at hbind ⊢
      exact hbind.2.symm
  subst hsetup2 hbind2
  refine ⟨hn.symm, A, B, ?_, ?_, ?_⟩
  · simp [boot_calls]
  · simpa [boot_calls] using hinit
  · simpa [boot_calls] using hstart

theorem mem_promiscuous_of_ret_init_port (env : Env) (p : Nat) (h : Trace) (u : Unit)
    (es : Trace) (hr : (init_port env p).run h = (Outcome.ret u, es)) :
    Call.rte_eth_promiscuous_enable p ∈ es := by
  rw [ret_init_port env p h u es hr]
  simp [init_port_calls]

theorem mem_start_of_ret_start_body (env : Env) (g_port_id p : Nat) (h : Trace) (u : Unit)
    (es : Trace)
    (hr : (do
      let ret ← callStatus env (Call.rte_eth_dev_start p)
      exit_if (ret < 0) EXIT_FAILURE
      assert_link_status env g_port_id : M Unit).run h = (Outcome.ret u, es)) :
    Call.rte_eth_dev_start p ∈ es := by
  rw [run_bind_eq_ret] at hr
  obtain ⟨a, es1, es2, h1, -, rfl⟩ := hr
  simp only [run_callStatus, Prod.mk.injEq] at h1
  rw [← h1.2]
  simp

/-! ## C2: the order of the rule-builder calls -/

/-- C2: whenever startup runs to its end (in particular whenever every call
succeeds, in which case it does run to its end), the stage rule-builder calls
`main` has issued are, in this order: GTP-U decap RSS, GTP-U inner-IP RSS,
GTP-U encap, GTP-U PSC encap, tag, sampling, NIC mirror, symmetric RSS, age,
GRE decap RSS, GRE encap, counter, modify GTP-U TEID; each receives the port
id returned by `rte_eth_find_next(0)`, and the RSS builders receive
`nr_std_queues` and the array `queues`. -/
theorem install_order (env : Env) :
    (∀ port_id, ((main_startup env).run []).1 = Outcome.ret port_id →
      port_id = u16 env.first_port ∧
      ((main_startup env).run []).2.filter isStageCall =
        [Call.create_gtp_u_decap_rss_flow port_id nr_std_queues queues,
          Call.create_gtp_u_inner_ip_rss_flow port_id nr_std_queues queues,
          Call.create_gtp_u_encap_flow port_id,
          Call.create_gtp_u_psc_encap_flow port_id,
          Call.create_flow_with_tag port_id,
          Call.create_flow_with_sampling port_id,
          Call.create_nic_flow_with_mirror port_id 2 1,
          Call.create_symmetric_rss_flow port_id nr_std_queues queues,
          Call.create_flow_with_age port_id,
          Call.create_gre_decap_rss_flow port_id nr_std_queues queues,
          Call.create_gre_encap_flow port_id,
          Call.create_flow_with_counter port_id,
          Call.create_modify_gtp_teid_flows port_id]) ∧
    (AllSucceed env → u16 env.ports.length ≠ 0 →
      ((main_startup env).run []).1 = Outcome.ret (u16 env.first_port)) := by
  constructor
  · intro port_id hp
    have hr := run_eq_of_fst hp
    generalize ((main_startup env).run []).2 = es at hr ⊢
    unfold main_startup at hr
    simp only [run_bind_eq_ret, run_callVoid, run_pure, Prod.mk.injEq, Outcome.ret.injEq] at hr
    obtain ⟨n, es1, es2, hset, ⟨u1, es3, es4, ⟨-, rfl⟩, ⟨u2, es5, es6, hflows, ⟨hport, rfl⟩,
      rfl⟩, rfl⟩, rfl⟩ := hr
    subst hport
    refine ⟨rfl, ?_⟩
    rw [ret_install_flows env n _ _ _ _ hflows]
    obtain ⟨-, A, B, rfl, hA, hB⟩ := ret_main_setup env [] n es1 hset
    have hAf : A.filter isStageCall = [] := by
      rw [List.filter_eq_nil_iff]
      intro c hc
      have h1 : isInitCall c = true := by
        have := emits_init_ports env ([] ++ boot_calls) c
        rw [hA] at this
        exact this hc
      simp [(not_stage_of_init c h1).1]
    have hBf : B.filter isStageCall = [] := by
      rw [List.filter_eq_nil_iff]
      intro c hc
      have h1 : isStartCall c = true := by
        have := emits_start_ports env 0 ([] ++ boot_calls ++ A ++ [hairpin_setup_call n]) c
        rw [hB] at this
        exact this hc
      simp [(not_stage_of_start c h1).1]
    have hsf : [hairpin_setup_call n].filter isStageCall = [] := by
      unfold hairpin_setup_call
      by_cases h2 : n = 2 <;> simp [h2, isStageCall, isRuleBuilder]
    have hbf : (if n = 2 then [Call.hairpin_two_ports_bind] else []).filter isStageCall = [] := by
      by_cases h2 : n = 2 <;> simp [h2, isStageCall, isRuleBuilder]
    have hbt : boot_calls.filter isStageCall = [] := rfl
    simp only [List.filter_append, hAf, hBf, hsf, hbf, hbt, filter_stage_install_flows_calls,
      List.append_nil, List.nil_append]
    rfl
  · intro hall hp
    obtain ⟨a, es, hr, ha⟩ := succeeds_main_startup hall hp []
    rw [hr, ha]

/-- Witness for C2: two ports, every call succeeds. -/
theorem install_order_witness :
    (0 : Nat) = u16 quietEnv.first_port ∧
      ((main_startup quietEnv).run []).2.filter isStageCall =
        [Call.create_gtp_u_decap_rss_flow 0 nr_std_queues queues,
          Call.create_gtp_u_inner_ip_rss_flow 0 nr_std_queues queues,
          Call.create_gtp_u_encap_flow 0,
          Call.create_gtp_u_psc_encap_flow 0,
          Call.create_flow_with_tag 0,
          Call.create_flow_with_sampling 0,
          Call.create_nic_flow_with_mirror 0 2 1,
          Call.create_symmetric_rss_flow 0 nr_std_queues queues,
          Call.create_flow_with_age 0,
          Call.create_gre_decap_rss_flow 0 nr_std_queues queues,
          Call.create_gre_encap_flow 0,
          Call.create_flow_with_counter 0,
          Call.create_modify_gtp_teid_flows 0] :=
  (install_order quietEnv).1 0 (by decide)

/-! ## C4: the two phases of the hairpin wiring -/

/-- C4: in every run of `main` in which `main_setup` returns (the flow-rule
stage is reached), the trace is `A`, the hairpin setup call, `B`, the bind
call if and only if `nr_ports` is 2, and the remainder, where: `A` contains
the last call of `init_port` for every discovered port and neither
`rte_eth_dev_start` nor a hairpin call nor a rule builder; `B` contains
`rte_eth_dev_start` for every discovered port and nothing but the calls of
`start_ports`; the remainder contains no `rte_eth_dev_start`, no hairpin setup
or bind and no `init_port` call.  So setup comes after every port is
configured and before the first start, and bind is called once, after every
port is started and before the first rule builder. -/
theorem hairpin_two_phase_order (env : Env) (fuel nr_ports : Nat)
    (hr : ((main_setup env).run []).1 = Outcome.ret nr_ports) :
    nr_ports = u16 env.ports.length ∧
    ∃ A B remainder,
      ((main env fuel).run []).2 =
        A ++ [hairpin_setup_call nr_ports] ++ B
          ++ (if nr_ports = 2 then [Call.hairpin_two_ports_bind] else []) ++ remainder ∧
      (∀ p ∈ env.ports, Call.rte_eth_promiscuous_enable p ∈ A) ∧
      (∀ c ∈ A, isStartOrHairpin c = false ∧ isRuleBuilder c = false) ∧
      (∀ p ∈ env.ports, Call.rte_eth_dev_start p ∈ B) ∧
      (∀ c ∈ B, isStartCall c = true ∧ isRuleBuilder c = false) ∧
      (∀ c ∈ remainder, isStartOrHairpin c = false ∧ isInitCall c = false) := by
  have hset := run_eq_of_fst hr
  obtain ⟨hn, A, B, hes, hA, hB⟩ := ret_main_setup env [] nr_ports _ hset
  refine ⟨hn, boot_calls ++ A, B,
    ((((do
        callVoid (Call.rte_eth_find_next 0)
        install_flows env nr_ports (u16 env.first_port)
        pure (u16 env.first_port)) >>= fun port_id => do
          let _ ← main_loop env port_id fuel
          main_teardown env) : M Int).run ([] ++ ((main_setup env).run []).2)).2, ?_, ?_, ?_, ?_, ?_, ?_⟩
  · have hmain : (main env fuel).run [] = (main_setup env >>= fun n =>
        (do
          callVoid (Call.rte_eth_find_next 0)
          install_flows env n (u16 env.first_port)
          pure (u16 env.first_port)) >>= fun port_id => do
            let _ ← main_loop env port_id fuel
            main_teardown env).run [] := by
      unfold main main_startup
      exact run_bind_assoc _ _ _ _
    rw [hmain, snd_bind_of_ret hset, hes]
  · intro p hp
    refine List.mem_append_right _ ?_
    exact mem_of_ret_foreach_dev (Q := Call.rte_eth_promiscuous_enable)
      (fun q h1 u es h2 => mem_promiscuous_of_ret_init_port env q h1 u es h2) env.ports _ () A hA p hp
  · intro c hc
    rcases List.mem_append.mp hc with hc | hc
    · exact ⟨(not_stage_of_boot c hc).2.2, (not_stage_of_boot c hc).2.1⟩
    · have h1 : isInitCall c = true := by
        have := emits_init_ports env ([] ++ boot_calls) c
        rw [hA] at this
        exact this hc
      exact ⟨(not_stage_of_init c h1).2.2, (not_stage_of_init c h1).2.1⟩
  · intro p hp
    exact mem_of_ret_foreach_dev (Q := Call.rte_eth_dev_start)
      (fun q h1 u es h2 => mem_start_of_ret_start_body env 0 q h1 u es h2) env.ports _ () B hB p hp
  · intro c hc
    have h1 : isStartCall c = true := by
      have := emits_start_ports env 0 ([] ++ boot_calls ++ A ++ [hairpin_setup_call nr_ports]) c
      rw [hB] at this
      exact this hc
    exact ⟨h1, (not_stage_of_start c h1).2.1⟩
  · intro c hc
    exact not_setup_of_after c (emits_after_setup env fuel nr_ports _ c hc)

/-- Witness for C4: two ports, every call succeeds. -/
theorem hairpin_two_phase_order_witness :
    2 = u16 quietEnv.ports.length ∧
    ∃ A B remainder,
      ((main quietEnv 1).run []).2 =
        A ++ [hairpin_setup_call 2] ++ B
          ++ (if 2 = 2 then [Call.hairpin_two_ports_bind] else []) ++ remainder ∧
      (∀ p ∈ quietEnv.ports, Call.rte_eth_promiscuous_enable p ∈ A) ∧
      (∀ c ∈ A, isStartOrHairpin c = false ∧ isRuleBuilder c = false) ∧
      (∀ p ∈ quietEnv.ports, Call.rte_eth_dev_start p ∈ B) ∧
      (∀ c ∈ B, isStartCall c = true ∧ isRuleBuilder c = false) ∧
      (∀ c ∈ remainder, isStartOrHairpin c = false ∧ isInitCall c = false) :=
  hairpin_two_phase_order quietEnv 1 2 (by decide)

/-! ## C1, C3, C10: where `main` does not do what is claimed -/

/-- C1, at the failing input: `create_gtp_u_decap_rss_flow` returns `NULL`
(and every other call succeeds), yet `main` does not exit; it goes on to call
`create_gtp_u_inner_ip_rss_flow` and every later rule builder and reaches
`main_loop`. -/
theorem startup_survives_decap_failure :
    (∀ h, decapFailEnv.handle (h ++ [Call.create_gtp_u_decap_rss_flow 0 8 queues]) = 0) ∧
    ((main_startup decapFailEnv).run []).1 = Outcome.ret 0 ∧
    ((main_startup decapFailEnv).run []).2.filter isRuleBuilder =
      [Call.create_gtp_u_decap_rss_flow 0 8 queues,
        Call.create_gtp_u_inner_ip_rss_flow 0 8 queues,
        Call.create_gtp_u_encap_flow 0,
        Call.create_gtp_u_psc_encap_flow 0,
        Call.hairpin_two_ports_flows_create,
        Call.create_flow_with_tag 0,
        Call.create_flow_with_sampling 0,
        Call.create_nic_flow_with_mirror 0 2 1,
        Call.create_symmetric_rss_flow 0 8 queues,
        Call.create_flow_with_age 0,
        Call.create_gre_decap_rss_flow 0 8 queues,
        Call.create_gre_encap_flow 0,
        Call.create_hairpin_meta_flow,
        Call.create_flow_with_counter 0,
        Call.create_modify_gtp_teid_flows 0] := by
  refine ⟨?_, by decide, by decide⟩
  intro h
  simp [decapFailEnv]

/-- C3, at the failing input: `hairpin_two_ports_setup` returns -1 (and every
other call succeeds), yet `main` does not exit; it starts both ports, binds,
and reaches the flow-rule stage. -/
theorem setup_survives_hairpin_setup_failure :
    (∀ h, setupFailEnv.status (h ++ [Call.hairpin_two_ports_setup 1]) = -1) ∧
    ((main_setup setupFailEnv).run []).1 = Outcome.ret 2 ∧
    ((main_setup setupFailEnv).run []).2.filter isStartOrHairpin =
      [Call.hairpin_two_ports_setup 1,
        Call.rte_eth_dev_start 0, Call.rte_eth_link_get 0,
        Call.rte_eth_dev_start 1, Call.rte_eth_link_get 0,
        Call.hairpin_two_ports_bind] := by
  refine ⟨?_, by decide, by decide⟩
  intro h
  simp [setupFailEnv]

theorem link_get_port_of_link_poll_loop (env : Env) (g_port_id n : Nat) (link : Bool)
    (h : Trace) :
    EmitsAt (link_poll_loop env g_port_id n link) h
      (fun c => ∀ p, c = Call.rte_eth_link_get p → p = g_port_id) := by
  induction n generalizing link h with
  | zero => exact emitsAt_pure _ _ _
  | succ n ih =>
    unfold link_poll_loop
    refine emitsAt_bind (emitsAt_call (fun p hp => by cases hp; rfl)) (fun t _ _ => ?_)
    dsimp only
    repeat' first
      | exact emitsAt_pure _ _ _
      | exact ih _ _
      | exact emitsAt_callVoid (fun p hp => by cases hp)
      | refine emitsAt_bind ?_ (fun _ _ _ => ?_)
      | split

theorem link_get_port_of_start_ports (env : Env) (g_port_id : Nat) (h : Trace) :
    EmitsAt (start_ports env g_port_id) h
      (fun c => ∀ p, c = Call.rte_eth_link_get p → p = g_port_id) := by
  unfold start_ports
  refine emitsAt_foreach_dev (fun q h1 => ?_) _ _
  refine emitsAt_bind (emitsAt_callStatus (fun p hp => by cases hp)) (fun _ _ _ => ?_)
  refine emitsAt_bind (emitsAt_exit_if _ _ _ _) (fun _ _ _ => ?_)
  unfold assert_link_status
  refine emitsAt_bind (link_get_port_of_link_poll_loop _ _ _ _ _) (fun _ _ _ => ?_)
  exact emitsAt_bind (emitsAt_exit_if _ _ _ _) (fun _ _ _ => emitsAt_exit_if _ _ _ _)

/-- C10, at the failing input: ports 0 and 1, the link of port 1 down at
every query.  `start_ports` starts port 1 and then queries the link of port 0
(the file-scope `port_id`) once more; the link of port 1 is never queried and
`main` goes on to the hairpin bind instead of exiting.  In general every
`rte_eth_link_get` call of `start_ports` is for the file-scope `port_id`,
whichever port the loop has just started. -/
theorem start_ports_queries_port_zero_only :
    (∀ (env : Env) (g_port_id : Nat) (h : Trace),
      ∀ c ∈ ((start_ports env g_port_id).run h).2,
        ∀ p, c = Call.rte_eth_link_get p → p = g_port_id) ∧
    (∀ h, port1DownEnv.link (h ++ [Call.rte_eth_link_get 1]) = some false) ∧
    ((main_setup port1DownEnv).run []).1 = Outcome.ret 2 ∧
    ((main_setup port1DownEnv).run []).2.filter isStartOrHairpin =
      [Call.hairpin_two_ports_setup 1,
        Call.rte_eth_dev_start 0, Call.rte_eth_link_get 0,
        Call.rte_eth_dev_start 1, Call.rte_eth_link_get 0,
        Call.hairpin_two_ports_bind] := by
  refine ⟨fun env g h => link_get_port_of_start_ports env g h, ?_, by decide, by decide⟩
  intro h
  simp [port1DownEnv]

end VnfAccel
